import Mathlib

/-!
Verification of the Lead Discovery & Enrichment Pipeline
(repository: vinyashegde/lead-generator-flask).

This file gives a shallow embedding of the pipeline logic that is repeated
across the repository's scripts, translated from the Python sources:

* `scraper.py` — `generate_leads` (SSE-streaming orchestrator),
  `scrape_email_from_website` (contact-scrape enrichment sub-step);
* `scraper_b2b.py` — `find_decision_maker_on_linkedin`;
* `generate_leads_with_email.py` / `generate_wellness_gym_leads.py` —
  the resumable `fetch_leads` / `save_lead_incrementally` pair;
* `generate_400_leads.py` / `generate_leads.py` — the plain (non-resumable)
  `fetch_leads` / `get_hydrogen_water_leads` loops.

Modelling conventions:
* A Python optional string field (`result.get("title")`) is `Option String`,
  with `none` for Python `None`; Python truthiness of such a value is
  `truthy` below (`None` and `""` are falsy).
* External effects are oracle parameters: a provider page fetch is a function
  `Nat → Except String (List RawRecord)` (`.error` models a raised
  exception caught by the surrounding `try`), an HTTP page fetch and a
  search call likewise return `Except`.  HTML parsing / regex extraction
  (out of scope per the spec, §1) are abstracted into the fields of the
  oracle's response.
* The SSE generator of `scraper.py` is modelled as a function producing the
  list of yielded events together with the final lead list; the unbounded
  `while` pagination loop takes explicit fuel, with a distinguished
  `LoopExit.fuelOut` marker so that termination is a provable statement
  rather than an assumption.
* `time.sleep`, logging to files, and Excel styling are pure no-ops for the
  properties considered and are not modelled (workbook generation is modelled
  as always succeeding).
-/

/-- Python truthiness of an optional string value: `None` and `""` are falsy. -/
def truthy : Option String → Bool
  | none => false
  | some s => s ≠ ""

/-- Python `f"{v}"` rendering of an optional string (`None` prints as "None"). -/
def pyStr : Option String → String
  | none => "None"
  | some s => s

/-- The underlying string of a truthy optional value (`""` for falsy ones). -/
def keyStr (o : Option String) : String := o.getD ""

/-- A raw provider result record (`result.get(...)` fields used by the code). -/
structure RawRecord where
  title : Option String
  phone : Option String
  address : Option String
  website : Option String
  rating : Option String
  reviews : Option String
  type : Option String
deriving DecidableEq, Repr

/-- The Identity-Key expression shared verbatim by every pipeline variant:
`dedup_key = phone if phone else (f"{title}|{address}" if address else title)`. -/
def dedup_key (title phone address : Option String) : Option String :=
  if truthy phone then phone
  else if truthy address then some (pyStr title ++ "|" ++ pyStr address)
  else title

/-- Identity Key of a raw record. -/
def RawRecord.key (r : RawRecord) : Option String :=
  dedup_key r.title r.phone r.address

/-- SSE event yielded by `generate_leads` (scraper.py). -/
inductive Event where
  | log (message : String)
  | progress (count total : Nat) (latest_lead : String)
  | error (message : String)
  | done (filename path : String) (count : Nat)
deriving DecidableEq, Repr

/-- A fully-built lead dict of `scraper.py` `generate_leads`. -/
structure Lead where
  title : Option String
  address : Option String
  phone : Option String
  website : Option String
  email : String
  rating : Option String
  reviews : Option String
  type : Option String
  source_query : String
deriving DecidableEq, Repr

/-- Mutable state of one `generate_leads` run: the `leads` list and the
`seen_identifiers` set (modelled as a list used only through membership). -/
structure GState where
  leads : List Lead
  seen : List String
deriving DecidableEq, Repr

/-- Processing of one raw result inside the page loop of
`scraper.py:generate_leads` (lines 226–275): dedup check, e-mail scrape,
`require_website` / `require_email` filters, append + progress event. -/
def processRecord (scrape : String → String) (require_email require_website : Bool)
    (limit : Nat) (query : String) (st : GState) (r : RawRecord) :
    List Event × GState :=
  if limit ≤ st.leads.length then ([], st)
  else
    let k := dedup_key r.title r.phone r.address
    if truthy k && !(st.seen.contains (keyStr k)) then
      let seen' := keyStr k :: st.seen
      let email := if truthy r.website then scrape (keyStr r.website) else ""
      let scrapeEvs : List Event :=
        if truthy r.website then
          Event.log ("Scraping emails from " ++ keyStr r.website ++ "...") ::
            (if email ≠ "" then [Event.log ("Found emails: " ++ email)] else [])
        else []
      if require_website && !truthy r.website then
        (scrapeEvs ++ [Event.log ("Skipping " ++ pyStr r.title ++ " (no website)")],
         { st with seen := seen' })
      else if require_email && (email == "") then
        (scrapeEvs ++ [Event.log ("Skipping " ++ pyStr r.title ++ " (no email)")],
         { st with seen := seen' })
      else
        let lead : Lead :=
          { title := r.title, address := r.address, phone := r.phone,
            website := r.website, email := email, rating := r.rating,
            reviews := r.reviews, type := r.type, source_query := query }
        (scrapeEvs ++ [Event.progress (st.leads.length + 1) limit (pyStr r.title)],
         { leads := st.leads ++ [lead], seen := seen' })
    else ([], st)

/-- The `for result in local_results` loop over one provider page.
(The Python `break` on reaching the limit is equivalent to skipping the
remaining records, which is how `processRecord`'s leading guard behaves.) -/
def processRecords (scrape : String → String) (require_email require_website : Bool)
    (limit : Nat) (query : String) : GState → List RawRecord → List Event × GState
  | st, [] => ([], st)
  | st, r :: rs =>
    let p := processRecord scrape require_email require_website limit query st r
    let q := processRecords scrape require_email require_website limit query p.2 rs
    (p.1 ++ q.1, q.2)

/-- How the paginated `while len(leads) < limit` loop of `generate_leads`
exited: normally (limit reached or provider exhausted), via the `except`
branch, or — a model artifact — because the modelling fuel ran out. -/
inductive LoopExit where
  | completed
  | errored
  | fuelOut
deriving DecidableEq, Repr

/-- The `while len(leads) < limit` pagination loop of
`scraper.py:generate_leads` (lines 207–282).  `provider start` models the
SerpAPI call; `.error` is a raised exception, caught and reported as an
`error` event after which the generator returns. -/
def genLoop (provider : Nat → Except String (List RawRecord))
    (scrape : String → String) (require_email require_website : Bool)
    (limit : Nat) (query : String) :
    Nat → Nat → GState → List Event × GState × LoopExit
  | 0, _, st => ([], st, .fuelOut)
  | fuel + 1, start, st =>
    if limit ≤ st.leads.length then ([], st, .completed)
    else
      let fetchLog := Event.log ("Fetching results from SerpAPI (start=" ++
        toString start ++ ")...")
      match provider start with
      | .error e =>
        ([fetchLog, Event.error ("Google Maps/SerpAPI Error: " ++ e)], st, .errored)
      | .ok [] =>
        ([fetchLog, Event.log "No more results found from Google Maps."], st, .completed)
      | .ok (r :: rs) =>
        let p := processRecords scrape require_email require_website limit query st (r :: rs)
        let q := genLoop provider scrape require_email require_website limit query
          fuel (start + 20) p.2
        (fetchLog :: (p.1 ++ q.1), q.2.1, q.2.2)

/-- `scraper.py:generate_leads` (lines 186–300), as the list of yielded SSE
events plus the final lead list and how the loop exited.  The timestamped
output filename is a parameter (wall-clock time is ambient state); building
the styled workbook is modelled as always succeeding. -/
def generate_leads (provider : Nat → Except String (List RawRecord))
    (scrape : String → String) (keyword location : String) (limit : Nat)
    (require_email require_website : Bool) (xlsx_filename : String) (fuel : Nat) :
    List Event × List Lead × LoopExit :=
  let query := keyword ++ " " ++ location
  let startLog := Event.log ("Starting lead generation for '" ++ keyword ++
    "' in '" ++ location ++ "'. Target: " ++ toString limit ++ " leads.")
  let out := genLoop provider scrape require_email require_website limit query fuel 0 ⟨[], []⟩
  match out.2.2 with
  | .completed =>
    let st := out.2.1
    let path := "generated_leads/" ++ xlsx_filename
    let tail :=
      (if st.leads.length ≠ 0 then [Event.log "📊 Building styled Excel report..."] else []) ++
      [Event.log ("✨ Finished! Generated " ++ toString st.leads.length ++
        " leads. Saved to " ++ xlsx_filename),
       Event.done xlsx_filename path st.leads.length]
    (startLog :: (out.1 ++ tail), st.leads, .completed)
  | ex => (startLog :: out.1, out.2.1.leads, ex)


/-! ## Resumable sink and resumable `fetch_leads`
(`generate_leads_with_email.py` lines 99–210; `generate_wellness_gym_leads.py`
has the identical `save_lead_incrementally` / `fetch_leads` logic.) -/

/-- A persisted CSV row: every value is a string (csv.DictWriter renders
Python `None` as the empty field). -/
structure Row where
  title : String
  address : String
  phone : String
  website : String
  email : String
  rating : String
  reviews : String
  type : String
  category : String
  source_query : String
  city : String
deriving DecidableEq, Repr

/-- CSV rendering of an optional string field (`None` → empty field). -/
def csvStr : Option String → String
  | none => ""
  | some s => s

/-- The stable column order of a lead dict (`lead.keys()` in source order). -/
def lead_fieldnames : List String :=
  ["title", "address", "phone", "website", "email", "rating", "reviews",
   "type", "category", "source_query", "city"]

/-- A CSV file on disk: the header row plus the data rows. -/
structure CsvFile where
  header : List String
  rows : List Row
deriving DecidableEq, Repr

/-- The Run Target file: `none` models a path that does not exist yet. -/
abbrev FileState := Option CsvFile

/-- `save_lead_incrementally` (generate_leads_with_email.py lines 99–108):
open in append mode; write the header only when the file did not exist;
append one data row. -/
def save_lead_incrementally (lead : Row) (file : FileState) : FileState :=
  match file with
  | none => some ⟨lead_fieldnames, [lead]⟩
  | some f => some { f with rows := f.rows ++ [lead] }

/-- Iterated `save_lead_incrementally` over a list of leads. -/
def save_many (leads : List Row) (file : FileState) : FileState :=
  leads.foldl (fun f l => save_lead_incrementally l f) file

/-- The Identity Key as recomputed from a persisted CSV row on resume
(generate_leads_with_email.py lines 124–127): field values are plain strings
here, so truthiness is just non-emptiness. -/
def row_dedup_key (row : Row) : String :=
  if row.phone ≠ "" then row.phone
  else if row.address ≠ "" then row.title ++ "|" ++ row.address
  else row.title

/-- In-memory state of one resumable `fetch_leads` run.  In the source the
`leads` list mixes loaded CSV rows and freshly-built lead dicts; it is only
ever used through its length, so new leads are stored here in their CSV-row
form (the exact value that `save_lead_incrementally` persists). -/
structure RState where
  leads : List Row
  seen : List String
deriving DecidableEq, Repr

/-- Resume initialization (generate_leads_with_email.py lines 118–133): read
every persisted row, recompute its Identity Key, and when the key is truthy
insert it into the seen-set and count the row toward the limit. -/
def resume_load (file : FileState) : RState :=
  match file with
  | none => ⟨[], []⟩
  | some f =>
    f.rows.foldl (fun st row =>
      let k := row_dedup_key row
      if k ≠ "" then ⟨st.leads ++ [row], k :: st.seen⟩ else st) ⟨[], []⟩

/-- The lead dict built on acceptance (generate_leads_with_email.py lines
184–196), in its persisted CSV form. -/
def mk_row (r : RawRecord) (email category query city : String) : Row :=
  { title := csvStr r.title, address := csvStr r.address, phone := csvStr r.phone,
    website := csvStr r.website, email := email, rating := csvStr r.rating,
    reviews := csvStr r.reviews, type := csvStr r.type, category := category,
    source_query := query, city := city }

/-- Processing of one raw result in the resumable `fetch_leads`
(generate_leads_with_email.py lines 164–200): limit guard, dedup check,
e-mail scrape, append to the in-memory list and to the Run Target file. -/
def fetch_step (scrape : String → String) (limit : Nat)
    (category query city : String) (s : RState × FileState) (r : RawRecord) :
    RState × FileState :=
  if limit ≤ s.1.leads.length then s
  else
    let k := dedup_key r.title r.phone r.address
    if truthy k && !(s.1.seen.contains (keyStr k)) then
      let email := if truthy r.website then scrape (keyStr r.website) else ""
      let lead := mk_row r email category query city
      (⟨s.1.leads ++ [lead], keyStr k :: s.1.seen⟩, save_lead_incrementally lead s.2)
    else s

/-- One resumable `fetch_leads` run over the stream of raw records its
query/location loops deliver (the nested loops of lines 135–208 linearize to
this record stream; the per-query break on reaching the limit coincides with
`fetch_step`'s leading guard).  Resume initialization runs first. -/
def fetch_run (scrape : String → String) (limit : Nat)
    (category query city : String) (file : FileState) (records : List RawRecord) :
    RState × FileState :=
  records.foldl (fetch_step scrape limit category query city) (resume_load file, file)

/-- Successive resumed runs against the same Run Target, each fed one batch
of raw records. -/
def run_seq (scrape : String → String) (limit : Nat)
    (category query city : String) (file : FileState)
    (batches : List (List RawRecord)) : FileState :=
  batches.foldl (fun f rs => (fetch_run scrape limit category query city f rs).2) file

/-- Number of data rows in a Run Target file. -/
def file_len : FileState → Nat
  | none => 0
  | some f => f.rows.length

/-- The Identity Keys of the rows of a Run Target file. -/
def file_keys : FileState → List String
  | none => []
  | some f => f.rows.map row_dedup_key

/-! ## Plain (non-resumable) query loops
(`generate_400_leads.py:fetch_leads` lines 82–157 and
`generate_leads.py:get_hydrogen_water_leads` lines 74–139 — identical
structure; the former also tags each lead with a category.) -/

/-- Lead dict of the plain scripts (`generate_400_leads.py` lines 132–143;
`generate_leads.py` builds the same dict without the category field, which is
simply `""` there). -/
structure PLead where
  title : Option String
  address : Option String
  phone : Option String
  website : Option String
  rating : Option String
  reviews : Option String
  type : Option String
  category : String
  source_query : String
  city : String
deriving DecidableEq, Repr

/-- State of a plain run. -/
structure PState where
  leads : List PLead
  seen : List String
deriving DecidableEq, Repr

/-- Per-record step of the plain loops (dedup + append, no enrichment). -/
def plain_step (limit : Nat) (category query city : String)
    (st : PState) (r : RawRecord) : PState :=
  if limit ≤ st.leads.length then st
  else
    let k := dedup_key r.title r.phone r.address
    if truthy k && !(st.seen.contains (keyStr k)) then
      { leads := st.leads ++
          [{ title := r.title, address := r.address, phone := r.phone,
             website := r.website, rating := r.rating, reviews := r.reviews,
             type := r.type, category := category, source_query := query,
             city := city }],
        seen := keyStr k :: st.seen }
    else st

/-- One query of the plain loops: a single provider call (`start = 0`); a
raised provider exception is caught, logged, and the loop continues with the
next query — exactly like an empty result page as far as state goes. -/
def plain_query (provider : String → Except String (List RawRecord))
    (limit : Nat) (category city : String) (st : PState) (query : String) : PState :=
  if limit ≤ st.leads.length then st
  else
    match provider query with
    | .error _ => st
    | .ok results => results.foldl (plain_step limit category query city) st

/-- `generate_400_leads.py:fetch_leads` (lines 82–157): the location × query
product, each combined query run once through `plain_query`. -/
def fetch_leads_400 (provider : String → Except String (List RawRecord))
    (base_queries locations : List String) (city : String) (limit : Nat)
    (category : String) : PState :=
  locations.foldl (fun st loc =>
    base_queries.foldl (fun st qb =>
      plain_query provider limit category city st (qb ++ " " ++ loc)) st)
    ⟨[], []⟩

/-- `generate_leads.py:get_hydrogen_water_leads` (lines 74–139): the same
loop shape (its lead dict has no category field; `""` stands in for it). -/
def get_hydrogen_water_leads (provider : String → Except String (List RawRecord))
    (base_queries locations : List String) (city : String) (limit : Nat) : PState :=
  fetch_leads_400 provider base_queries locations city limit ""

/-! ## Enrichment sub-steps
(`scraper.py:scrape_email_from_website` lines 22–82,
`scraper_b2b.py:find_decision_maker_on_linkedin` lines 51–84.)
The HTML/JSON parsing internals are out of scope (spec §1); the parsed
artifacts appear as fields of the oracle responses, while all control flow —
in particular every failure path — is translated from the source. -/

/-- The parsed artifacts of one fetched page: HTTP status, the e-mails the
regex extraction finds in the page text, the `contact` links, and the
e-mails of `mailto:` anchors (already stripped of `mailto:` and query). -/
structure HttpPage where
  status : Nat
  page_emails : List String
  contact_urls : List String
  mailto_emails : List String
deriving DecidableEq, Repr

/-- `'http://' + url` normalization at the top of the scrape. -/
def normalize_url (url : String) : String :=
  if url.startsWith "http" then url else "http://" ++ url

/-- Substring test (used for the blacklist filter `x in e.lower()`). -/
def str_contains (s pat : String) : Bool := (s.splitOn pat).length != 1

/-- Junk-domain blacklist of `scrape_email_from_website`. -/
def email_blacklist : List String :=
  ["example.com", "yourdomain", "sentry.io", "wixpress.com"]

/-- `scraper.py:scrape_email_from_website` (lines 22–82).  `httpGet` models
`requests.get` on the main URL (`.error` = raised exception, caught by the
outer `try`); `contactGet` models the guarded fetch-and-extract of one
contact page (its own `try` swallows failures).  Every failure path returns
`""`. -/
def scrape_email_from_website (httpGet : String → Except String HttpPage)
    (contactGet : String → Except String (List String)) (url : String) : String :=
  if url = "" then ""
  else
    match httpGet (normalize_url url) with
    | .error _ => ""
    | .ok page =>
      if page.status == 200 then
        let emails := page.page_emails
        let emails :=
          if emails.isEmpty then
            page.contact_urls.foldl (fun acc cu =>
              match contactGet cu with
              | .error _ => acc
              | .ok es => acc ++ es) emails
          else emails
        let emails := emails ++ page.mailto_emails.filter (· ≠ "")
        let filtered := emails.filter (fun e =>
          !(email_blacklist.any (fun b => str_contains e.toLower b)))
        if !filtered.isEmpty then String.intercalate ", " filtered else ""
      else ""

/-- One organic result of the X-Ray search (`top_result.get(...)` fields). -/
structure OrganicResult where
  link : String
  title : String
  snippet : String
deriving DecidableEq, Repr

/-- The X-Ray query string built by `find_decision_maker_on_linkedin`. -/
def dm_query (company_name : String) : String :=
  "site:linkedin.com/in/ \"" ++ company_name ++
  "\" (\"owner\" OR \"founder\" OR \"buyer\" OR \"purchasing\")"

/-- `raw_title.split('-')[0].split('|')[0].strip()`. -/
def dm_name_of_title (raw_title : String) : String :=
  ((((raw_title.splitOn "-").headD raw_title).splitOn "|").headD raw_title).trim

/-- `scraper_b2b.py:find_decision_maker_on_linkedin` (lines 51–84). `search`
models the SerpAPI call (`.error` = raised exception, caught by the `try`
whose fall-through returns the placeholder triple). -/
def find_decision_maker_on_linkedin
    (search : String → Except String (List OrganicResult))
    (company_name api_key : String) : String × String × String :=
  if api_key = "" then ("N/A", "N/A", "N/A")
  else
    match search (dm_query company_name) with
    | .error _ => ("Not Found", "N/A", "N/A")
    | .ok [] => ("Not Found", "N/A", "N/A")
    | .ok (top :: _) =>
      if str_contains top.link "/in/" then
        (dm_name_of_title top.title, top.link, top.snippet)
      else ("Not Found", "N/A", "N/A")

/-! ## Observations over event traces, and concrete oracles for tests. -/

/-- The `(count, total)` pairs of the progress events of a trace, in order. -/
def progressPairs : List Event → List (Nat × Nat)
  | [] => []
  | Event.progress c t _ :: evs => (c, t) :: progressPairs evs
  | _ :: evs => progressPairs evs

/-- Whether an event is a `done` event. -/
def isDone : Event → Bool
  | Event.done _ _ _ => true
  | _ => false

/-- Whether an event is an `error` event. -/
def isError : Event → Bool
  | Event.error _ => true
  | _ => false

/-- Whether an event is terminal (`done` or `error`). -/
def isTerminal (e : Event) : Bool := isDone e || isError e

/-- A provider with exactly one page of results at cursor 0. -/
def single_page (records : List RawRecord) : Nat → Except String (List RawRecord) :=
  fun start => if start = 0 then .ok records else .ok []

/-- Erase the enrichment output of a lead (for enrichment-independence
statements). -/
def Lead.core (l : Lead) : Lead := { l with email := "" }

/-! ## General helper lemmas -/

/-- The last element of a list ending in `a` is `a`. -/
theorem getLast?_concat' {α : Type} (l : List α) (a : α) :
    (l ++ [a]).getLast? = some a := by
  rw [List.getLast?_append_of_ne_nil _ (by simp)]; rfl

/-- A string with a `"|"` in the middle is nonempty. -/
theorem pipe_ne_empty (x y : String) : x ++ "|" ++ y ≠ "" := by
  intro h
  have hlen := congrArg String.length h
  simp [String.length_append] at hlen
  exact absurd hlen.1.2 (by decide)

/-! ## C8 : sink append contract -/

/-- C8 (confirmed): `save_lead_incrementally` appends exactly one row per
call in append mode; the header is written exactly once, on the first write
to a target that does not yet exist, and every later call — in the same run
or a later run against the same path — appends a data row without writing
the header again. -/
theorem sink_append_contract :
    (∀ (lead : Row) (f : CsvFile),
      save_lead_incrementally lead (some f) = some ⟨f.header, f.rows ++ [lead]⟩)
  ∧ (∀ lead : Row,
      save_lead_incrementally lead none = some ⟨lead_fieldnames, [lead]⟩)
  ∧ (∀ (f : CsvFile) (leads : List Row),
      save_many leads (some f) = some ⟨f.header, f.rows ++ leads⟩)
  ∧ (∀ (lead : Row) (leads : List Row),
      save_many (lead :: leads) none = some ⟨lead_fieldnames, lead :: leads⟩) := by
  have hmany : ∀ (leads : List Row) (f : CsvFile),
      save_many leads (some f) = some ⟨f.header, f.rows ++ leads⟩ := by
    intro leads
    induction leads with
    | nil => intro f; simp [save_many]
    | cons l ls ih =>
      intro f
      show save_many ls (save_lead_incrementally l (some f)) = _
      rw [show save_lead_incrementally l (some f) =
        some ⟨f.header, f.rows ++ [l]⟩ from rfl, ih]
      simp
  refine ⟨fun lead f => rfl, fun lead => rfl, fun f leads => hmany leads f, ?_⟩
  intro lead leads
  show save_many leads (save_lead_incrementally lead none) = _
  rw [show save_lead_incrementally lead none =
    some ⟨lead_fieldnames, [lead]⟩ from rfl, hmany]
  simp

/-! ## C3 : identity key computation -/

/-- C3 (counterexample): a RawRecord with an absent name but a non-empty
phone is *not* dropped — `scraper.py:generate_leads` accepts and persists it
(its key is the phone), contradicting "empty/absent name yields no key and
the record is always dropped". -/
theorem identity_key_counterexample :
    ((generate_leads (single_page [⟨none, some "5551234", none, none, none, none, none⟩])
        (fun _ => "") "k" "l" 5 false false "f.xlsx" 3).2.1.map Lead.title) = [none] := by
  decide

/-- C3 (amended): the Identity Key is the phone when the phone is present and
non-empty; otherwise `"{name}|{address}"` when the address is present and
non-empty (an absent name rendering as the literal `"None"`); otherwise the
bare name.  A record is dropped for lack of a key exactly when phone,
address *and* name are all empty/absent — an empty or absent name alone does
not cause the record to be dropped. -/
theorem identity_key_amended :
    (∀ t p a, truthy p = true → dedup_key t p a = p)
  ∧ (∀ t p a, truthy p = false → truthy a = true →
      dedup_key t p a = some (pyStr t ++ "|" ++ pyStr a))
  ∧ (∀ t p a, truthy p = false → truthy a = false → dedup_key t p a = t)
  ∧ (∀ r : RawRecord, truthy r.key = false ↔
      (truthy r.phone = false ∧ truthy r.address = false ∧ truthy r.title = false))
  ∧ (∀ scrape re rw limit query st (r : RawRecord), truthy r.key = false →
      processRecord scrape re rw limit query st r = ([], st))
  ∧ (∀ limit category query city st (r : RawRecord), truthy r.key = false →
      plain_step limit category query city st r = st) := by
  have hkey : ∀ r : RawRecord, truthy r.key = false ↔
      (truthy r.phone = false ∧ truthy r.address = false ∧ truthy r.title = false) := by
    intro r
    unfold RawRecord.key dedup_key
    by_cases hp : truthy r.phone
    · simp [hp]
    · by_cases ha : truthy r.address
      · simp only [hp, ha, if_true, if_false, Bool.not_eq_true]
        constructor
        · intro h
          exact absurd h (by simp [truthy, pipe_ne_empty])
        · rintro ⟨_, h, _⟩; simp [ha] at h
      · simp [hp, ha]
  refine ⟨?_, ?_, ?_, hkey, ?_, ?_⟩
  · intro t p a hp; simp [dedup_key, hp]
  · intro t p a hp ha; simp [dedup_key, hp, ha]
  · intro t p a hp ha; simp [dedup_key, hp, ha]
  · intro scrape re rw limit query st r h
    unfold processRecord
    by_cases hl : limit ≤ st.leads.length
    · simp [hl]
    · simp only [hl, if_false]
      rw [show dedup_key r.title r.phone r.address = r.key from rfl, h]
      simp
  · intro limit category query city st r h
    unfold plain_step
    by_cases hl : limit ≤ st.leads.length
    · simp [hl]
    · simp only [hl, if_false]
      rw [show dedup_key r.title r.phone r.address = r.key from rfl, h]
      simp

/-- Witness for the amended C3 theorem at concrete inputs. -/
theorem identity_key_amended_witness :
    dedup_key (some "A") none (some "B") = some "A|B"
    ∧ plain_step 5 "c" "q" "ct" ⟨[], []⟩ ⟨none, none, none, none, none, none, none⟩
      = ⟨[], []⟩ := by
  exact ⟨identity_key_amended.2.1 (some "A") none (some "B") (by decide) (by decide),
    identity_key_amended.2.2.2.2.2 5 "c" "q" "ct" ⟨[], []⟩ _ (by decide)⟩

/-! ## C2 : dedup correctness -/

/-- Identity Key of an accepted lead (its key fields are copied unchanged
from the raw record). -/
def Lead.key (l : Lead) : String := keyStr (dedup_key l.title l.phone l.address)

/-- Identity Key of an accepted plain-script lead. -/
def PLead.key (l : PLead) : String := keyStr (dedup_key l.title l.phone l.address)

/-- Appending a fresh element preserves `Nodup`. -/
theorem nodup_snoc {α : Type} {l : List α} {a : α} (h : l.Nodup) (ha : a ∉ l) :
    (l ++ [a]).Nodup := by
  simp [List.nodup_append, h, ha]

/-- Dedup invariant of a `generate_leads` state: persisted keys are pairwise
distinct and all of them are in the seen-set. -/
def GInv (st : GState) : Prop :=
  (st.leads.map Lead.key).Nodup ∧ ∀ k ∈ st.leads.map Lead.key, k ∈ st.seen

/-- `List.contains` returning `false` means non-membership. -/
theorem not_mem_of_contains_false {l : List String} {a : String}
    (h : l.contains a = false) : a ∉ l := by
  intro hm
  rw [show l.contains a = l.elem a from rfl, List.elem_iff.mpr hm] at h
  cases h

/-- Membership means `List.contains` returns `true`. -/
theorem contains_true_of_mem {l : List String} {a : String} (h : a ∈ l) :
    l.contains a = true := by
  rw [show l.contains a = l.elem a from rfl]
  exact List.elem_iff.mpr h

/-- The e-mail enrichment value computed for a record inside the accept
branch of `generate_leads`. -/
def scrape_email_value (scrape : String → String) (r : RawRecord) : String :=
  if truthy r.website then scrape (keyStr r.website) else ""

/-- The lead dict built in the accept branch of `generate_leads`. -/
def mk_lead (scrape : String → String) (query : String) (r : RawRecord) : Lead :=
  { title := r.title, address := r.address, phone := r.phone, website := r.website,
    email := scrape_email_value scrape r, rating := r.rating, reviews := r.reviews,
    type := r.type, source_query := query }

/-- The combined `require_website` / `require_email` rejection condition. -/
def fails_filter (scrape : String → String) (re rw : Bool) (r : RawRecord) : Bool :=
  (rw && !truthy r.website) || (re && (scrape_email_value scrape r == ""))

theorem processRecord_limit (scrape : String → String) (re rw : Bool)
    (limit : Nat) (query : String) (st : GState) (r : RawRecord)
    (hl : limit ≤ st.leads.length) :
    processRecord scrape re rw limit query st r = ([], st) := by
  simp only [processRecord]
  rw [if_pos hl]

theorem processRecord_skip (scrape : String → String) (re rw : Bool)
    (limit : Nat) (query : String) (st : GState) (r : RawRecord)
    (hk : (truthy (dedup_key r.title r.phone r.address)
      && !(st.seen.contains (keyStr (dedup_key r.title r.phone r.address)))) = false) :
    processRecord scrape re rw limit query st r = ([], st) := by
  have hk' : ¬ ((truthy (dedup_key r.title r.phone r.address)
      && !(st.seen.contains (keyStr (dedup_key r.title r.phone r.address)))) = true) := by
    rw [hk]; simp
  by_cases hl : limit ≤ st.leads.length
  · simp only [processRecord]; rw [if_pos hl]
  · simp only [processRecord]; rw [if_neg hl, if_neg hk']

theorem processRecord_filtered (scrape : String → String) (re rw : Bool)
    (limit : Nat) (query : String) (st : GState) (r : RawRecord)
    (hl : ¬ limit ≤ st.leads.length)
    (hk : (truthy (dedup_key r.title r.phone r.address)
      && !(st.seen.contains (keyStr (dedup_key r.title r.phone r.address)))) = true)
    (hf : fails_filter scrape re rw r = true) :
    (processRecord scrape re rw limit query st r).2 =
      { st with seen := keyStr (dedup_key r.title r.phone r.address) :: st.seen } := by
  simp only [processRecord]
  rw [if_neg hl, if_pos hk]
  cases hw : (rw && !truthy r.website) with
  | true => rw [if_pos (show (true : Bool) = true from rfl)]
  | false =>
    have he : (re && ((if truthy r.website then scrape (keyStr r.website) else "") == ""))
        = true := by
      have h2 := hf
      rw [fails_filter, hw, Bool.false_or, scrape_email_value] at h2
      exact h2
    rw [if_neg (show ¬ ((false : Bool) = true) by simp), if_pos he]

theorem processRecord_accept (scrape : String → String) (re rw : Bool)
    (limit : Nat) (query : String) (st : GState) (r : RawRecord)
    (hl : ¬ limit ≤ st.leads.length)
    (hk : (truthy (dedup_key r.title r.phone r.address)
      && !(st.seen.contains (keyStr (dedup_key r.title r.phone r.address)))) = true)
    (hf : fails_filter scrape re rw r = false) :
    (processRecord scrape re rw limit query st r).2 =
      { leads := st.leads ++ [mk_lead scrape query r],
        seen := keyStr (dedup_key r.title r.phone r.address) :: st.seen } := by
  have hw : (rw && !truthy r.website) = false := by
    cases hb : (rw && !truthy r.website) with
    | false => rfl
    | true => rw [fails_filter, hb] at hf; simp at hf
  have he : (re && ((if truthy r.website then scrape (keyStr r.website) else "") == ""))
      = false := by
    have h2 : (re && (scrape_email_value scrape r == "")) = false := by
      cases hb : (re && (scrape_email_value scrape r == "")) with
      | false => rfl
      | true => rw [fails_filter, hb] at hf; simp at hf
    rw [scrape_email_value] at h2
    exact h2
  have hw' : ¬ ((rw && !truthy r.website) = true) := by rw [hw]; simp
  have he' : ¬ ((re && ((if truthy r.website then scrape (keyStr r.website) else "") == ""))
      = true) := by rw [he]; simp
  simp only [processRecord]
  rw [if_neg hl, if_pos hk, if_neg hw', if_neg he']
  rfl

/-- `progressPairs` distributes over append. -/
theorem progressPairs_append (l l' : List Event) :
    progressPairs (l ++ l') = progressPairs l ++ progressPairs l' := by
  induction l with
  | nil => rfl
  | cons e l ih => cases e <;> simp [progressPairs, ih]

theorem processRecord_filtered_pairs (scrape : String → String) (re rw : Bool)
    (limit : Nat) (query : String) (st : GState) (r : RawRecord)
    (hl : ¬ limit ≤ st.leads.length)
    (hk : (truthy (dedup_key r.title r.phone r.address)
      && !(st.seen.contains (keyStr (dedup_key r.title r.phone r.address)))) = true)
    (hf : fails_filter scrape re rw r = true) :
    progressPairs (processRecord scrape re rw limit query st r).1 = [] := by
  cases hw : (rw && !truthy r.website) with
  | true =>
    simp only [processRecord, hl, if_false, hk, if_true, hw]
    by_cases hweb : truthy r.website
    · by_cases hem : scrape (keyStr r.website) ≠ ""
      · simp [hweb, hem, progressPairs_append, progressPairs]
      · simp [hweb, hem, progressPairs_append, progressPairs]
    · simp [hweb, progressPairs_append, progressPairs]
  | false =>
    have he : (re && (scrape_email_value scrape r == "")) = true := by
      simpa [fails_filter, hw] using hf
    rw [scrape_email_value] at he
    simp only [processRecord, hl, if_false, hk, if_true, hw, he]
    by_cases hweb : truthy r.website
    · by_cases hem : scrape (keyStr r.website) ≠ ""
      · simp [hweb, hem, progressPairs_append, progressPairs]
      · simp [hweb, hem, progressPairs_append, progressPairs]
    · simp [hweb, progressPairs_append, progressPairs]

theorem processRecord_accept_pairs (scrape : String → String) (re rw : Bool)
    (limit : Nat) (query : String) (st : GState) (r : RawRecord)
    (hl : ¬ limit ≤ st.leads.length)
    (hk : (truthy (dedup_key r.title r.phone r.address)
      && !(st.seen.contains (keyStr (dedup_key r.title r.phone r.address)))) = true)
    (hf : fails_filter scrape re rw r = false) :
    progressPairs (processRecord scrape re rw limit query st r).1 =
      [(st.leads.length + 1, limit)] := by
  have hw : (rw && !truthy r.website) = false := by
    cases hb : (rw && !truthy r.website) with
    | false => rfl
    | true => rw [fails_filter, hb] at hf; simp at hf
  have he : (re && (scrape_email_value scrape r == "")) = false := by
    cases hb : (re && (scrape_email_value scrape r == "")) with
    | false => rfl
    | true => rw [fails_filter, hb] at hf; simp at hf
  rw [scrape_email_value] at he
  simp only [processRecord, hl, if_false, hk, if_true, hw, he]
  by_cases hweb : truthy r.website
  · by_cases hem : scrape (keyStr r.website) ≠ ""
    · simp [hweb, hem, progressPairs_append, progressPairs]
    · simp [hweb, hem, progressPairs_append, progressPairs]
  · simp [hweb, progressPairs_append, progressPairs]

theorem processRecord_inv (scrape : String → String) (re rw : Bool)
    (limit : Nat) (query : String) (st : GState) (r : RawRecord)
    (h : GInv st) : GInv (processRecord scrape re rw limit query st r).2 := by
  by_cases hl : limit ≤ st.leads.length
  · rw [processRecord_limit scrape re rw limit query st r hl]; exact h
  · cases hk : (truthy (dedup_key r.title r.phone r.address)
        && !(st.seen.contains (keyStr (dedup_key r.title r.phone r.address)))) with
    | false => rw [processRecord_skip scrape re rw limit query st r hk]; exact h
    | true =>
      have hnotseen : keyStr (dedup_key r.title r.phone r.address) ∉ st.seen :=
        not_mem_of_contains_false
          (by simpa using ((Bool.and_eq_true _ _).mp hk).2)
      cases hf : fails_filter scrape re rw r with
      | true =>
        rw [processRecord_filtered scrape re rw limit query st r hl hk hf]
        exact ⟨h.1, fun k hkm => List.mem_cons_of_mem _ (h.2 k hkm)⟩
      | false =>
        rw [processRecord_accept scrape re rw limit query st r hl hk hf]
        constructor
        · show ((st.leads ++ [mk_lead scrape query r]).map Lead.key).Nodup
          rw [List.map_append]
          refine nodup_snoc h.1 ?_
          intro hmem
          exact hnotseen (h.2 _ hmem)
        · intro k hkm
          simp only [List.map_append, List.mem_append, List.map_cons, List.map_nil,
            List.mem_singleton] at hkm
          rcases hkm with hkm | hkm
          · exact List.mem_cons_of_mem _ (h.2 k hkm)
          · subst hkm
            exact List.mem_cons_self _ _

theorem processRecords_inv (scrape : String → String) (re rw : Bool)
    (limit : Nat) (query : String) (st : GState) (rs : List RawRecord)
    (h : GInv st) : GInv (processRecords scrape re rw limit query st rs).2 := by
  induction rs generalizing st with
  | nil => simpa [processRecords] using h
  | cons r rs ih =>
    exact ih _ (processRecord_inv scrape re rw limit query st r h)

theorem genLoop_inv (provider : Nat → Except String (List RawRecord))
    (scrape : String → String) (re rw : Bool) (limit : Nat) (query : String)
    (fuel start : Nat) (st : GState) (h : GInv st) :
    GInv (genLoop provider scrape re rw limit query fuel start st).2.1 := by
  induction fuel generalizing start st with
  | zero => simpa [genLoop] using h
  | succ fuel ih =>
    unfold genLoop
    split
    · exact h
    · split
      · exact h
      · exact h
      · exact ih _ _ (processRecords_inv scrape re rw limit query st _ h)

/-- The lead list returned by `generate_leads` is the loop\'s final state. -/
theorem generate_leads_leads (provider : Nat → Except String (List RawRecord))
    (scrape : String → String) (keyword location : String) (limit : Nat)
    (re rw : Bool) (fn : String) (fuel : Nat) :
    (generate_leads provider scrape keyword location limit re rw fn fuel).2.1 =
    (genLoop provider scrape re rw limit (keyword ++ " " ++ location)
      fuel 0 ⟨[], []⟩).2.1.leads := by
  simp only [generate_leads]
  cases hex : (genLoop provider scrape re rw limit (keyword ++ " " ++ location)
    fuel 0 ⟨[], []⟩).2.2 <;> rfl

/-- The plain-script lead dict built on acceptance. -/
def mk_plead (category query city : String) (r : RawRecord) : PLead :=
  { title := r.title, address := r.address, phone := r.phone, website := r.website,
    rating := r.rating, reviews := r.reviews, type := r.type, category := category,
    source_query := query, city := city }

theorem plain_step_limit (limit : Nat) (category query city : String)
    (st : PState) (r : RawRecord) (hl : limit ≤ st.leads.length) :
    plain_step limit category query city st r = st := by
  simp only [plain_step]
  rw [if_pos hl]

theorem plain_step_skip (limit : Nat) (category query city : String)
    (st : PState) (r : RawRecord)
    (hk : (truthy (dedup_key r.title r.phone r.address)
      && !(st.seen.contains (keyStr (dedup_key r.title r.phone r.address)))) = false) :
    plain_step limit category query city st r = st := by
  have hk' : ¬ ((truthy (dedup_key r.title r.phone r.address)
      && !(st.seen.contains (keyStr (dedup_key r.title r.phone r.address)))) = true) := by
    rw [hk]; simp
  by_cases hl : limit ≤ st.leads.length
  · simp only [plain_step]; rw [if_pos hl]
  · simp only [plain_step]; rw [if_neg hl, if_neg hk']

theorem plain_step_accept (limit : Nat) (category query city : String)
    (st : PState) (r : RawRecord) (hl : ¬ limit ≤ st.leads.length)
    (hk : (truthy (dedup_key r.title r.phone r.address)
      && !(st.seen.contains (keyStr (dedup_key r.title r.phone r.address)))) = true) :
    plain_step limit category query city st r =
      { leads := st.leads ++ [mk_plead category query city r],
        seen := keyStr (dedup_key r.title r.phone r.address) :: st.seen } := by
  simp only [plain_step]
  rw [if_neg hl, if_pos hk]
  rfl

theorem plain_step_inv (limit : Nat) (category query city : String)
    (st : PState) (r : RawRecord)
    (h : (st.leads.map PLead.key).Nodup ∧ ∀ k ∈ st.leads.map PLead.key, k ∈ st.seen) :
    (((plain_step limit category query city st r).leads.map PLead.key).Nodup
      ∧ ∀ k ∈ (plain_step limit category query city st r).leads.map PLead.key,
          k ∈ (plain_step limit category query city st r).seen) := by
  by_cases hl : limit ≤ st.leads.length
  · rw [plain_step_limit limit category query city st r hl]; exact h
  · cases hk : (truthy (dedup_key r.title r.phone r.address)
        && !(st.seen.contains (keyStr (dedup_key r.title r.phone r.address)))) with
    | false => rw [plain_step_skip limit category query city st r hk]; exact h
    | true =>
      have hnotseen : keyStr (dedup_key r.title r.phone r.address) ∉ st.seen :=
        not_mem_of_contains_false
          (by simpa using ((Bool.and_eq_true _ _).mp hk).2)
      rw [plain_step_accept limit category query city st r hl hk]
      constructor
      · show ((st.leads ++ [mk_plead category query city r]).map PLead.key).Nodup
        rw [List.map_append]
        refine nodup_snoc h.1 ?_
        intro hmem
        exact hnotseen (h.2 _ hmem)
      · intro k hkm
        simp only [List.map_append, List.mem_append, List.map_cons, List.map_nil,
          List.mem_singleton] at hkm
        rcases hkm with hkm | hkm
        · exact List.mem_cons_of_mem _ (h.2 k hkm)
        · subst hkm
          exact List.mem_cons_self _ _

theorem plain_fold_inv (limit : Nat) (category query city : String)
    (st : PState) (rs : List RawRecord)
    (h : (st.leads.map PLead.key).Nodup ∧ ∀ k ∈ st.leads.map PLead.key, k ∈ st.seen) :
    (((rs.foldl (plain_step limit category query city) st).leads.map PLead.key).Nodup
      ∧ ∀ k ∈ (rs.foldl (plain_step limit category query city) st).leads.map PLead.key,
          k ∈ (rs.foldl (plain_step limit category query city) st).seen) := by
  induction rs generalizing st with
  | nil => exact h
  | cons r rs ih => exact ih _ (plain_step_inv limit category query city st r h)

theorem plain_query_inv (provider : String → Except String (List RawRecord))
    (limit : Nat) (category city : String) (st : PState) (query : String)
    (h : (st.leads.map PLead.key).Nodup ∧ ∀ k ∈ st.leads.map PLead.key, k ∈ st.seen) :
    (((plain_query provider limit category city st query).leads.map PLead.key).Nodup
      ∧ ∀ k ∈ (plain_query provider limit category city st query).leads.map PLead.key,
          k ∈ (plain_query provider limit category city st query).seen) := by
  unfold plain_query
  split
  · exact h
  · split
    · exact h
    · exact plain_fold_inv limit category _ city st _ h

theorem fetch_leads_400_inv (provider : String → Except String (List RawRecord))
    (base_queries locations : List String) (city : String) (limit : Nat)
    (category : String) :
    ((fetch_leads_400 provider base_queries locations city limit category).leads.map
      PLead.key).Nodup := by
  unfold fetch_leads_400
  suffices h : ∀ (locs : List String) (st : PState),
      ((st.leads.map PLead.key).Nodup ∧ ∀ k ∈ st.leads.map PLead.key, k ∈ st.seen) →
      (((locs.foldl (fun st loc => base_queries.foldl (fun st qb =>
          plain_query provider limit category city st (qb ++ " " ++ loc)) st) st).leads.map
        PLead.key).Nodup
        ∧ ∀ k ∈ (locs.foldl (fun st loc => base_queries.foldl (fun st qb =>
            plain_query provider limit category city st (qb ++ " " ++ loc)) st) st).leads.map
          PLead.key,
          k ∈ (locs.foldl (fun st loc => base_queries.foldl (fun st qb =>
            plain_query provider limit category city st (qb ++ " " ++ loc)) st) st).seen) by
    exact (h locations ⟨[], []⟩ (by simp)).1
  intro locs
  induction locs with
  | nil => intro st h; exact h
  | cons loc locs ihl =>
    intro st h
    refine ihl _ ?_
    clear ihl
    induction base_queries generalizing st with
    | nil => exact h
    | cons qb qbs ihq =>
      exact ihq _ (plain_query_inv provider limit category city st _ h)

/-- C2 (confirmed): within one run, two RawRecords with equal Identity Keys
are never both appended — the persisted lead list of `generate_leads`
(scraper.py) and of `get_hydrogen_water_leads` (generate_leads.py) has
pairwise-distinct Identity Keys, because a record is accepted only when its
key is not in the seen-set and the key is inserted at acceptance. -/
theorem dedup_correctness :
    (∀ provider scrape keyword location limit re rw fn fuel,
      ((generate_leads provider scrape keyword location limit re rw fn fuel).2.1.map
        Lead.key).Nodup)
  ∧ (∀ provider base_queries locations city limit,
      ((get_hydrogen_water_leads provider base_queries locations city limit).leads.map
        PLead.key).Nodup) := by
  constructor
  · intro provider scrape keyword location limit re rw fn fuel
    rw [generate_leads_leads]
    exact (genLoop_inv provider scrape re rw limit _ fuel 0 ⟨[], []⟩ (by simp [GInv])).1
  · intro provider base_queries locations city limit
    exact fetch_leads_400_inv provider base_queries locations city limit ""

/-! ## C5 : monotonic progress -/

/-- Gluing lemma for unit-step ranges. -/
theorem range1_append (s m n : Nat) :
    List.range' s m ++ List.range' (s + m) n = List.range' s (m + n) := by
  have h := List.range'_append s m n 1
  simp only [one_mul, Nat.mul_one] at h
  rw [Nat.add_comm n m] at h
  exact h

theorem processRecord_progress (scrape : String → String) (re rw : Bool)
    (limit : Nat) (query : String) (st : GState) (r : RawRecord)
    (hle : st.leads.length ≤ limit) :
    st.leads.length ≤ (processRecord scrape re rw limit query st r).2.leads.length
  ∧ (processRecord scrape re rw limit query st r).2.leads.length ≤ limit
  ∧ progressPairs (processRecord scrape re rw limit query st r).1 =
      (List.range' (st.leads.length + 1)
        ((processRecord scrape re rw limit query st r).2.leads.length - st.leads.length)).map
        (fun c => (c, limit)) := by
  by_cases hl : limit ≤ st.leads.length
  · rw [processRecord_limit scrape re rw limit query st r hl]
    exact ⟨Nat.le_refl _, hle, by simp [progressPairs]⟩
  · cases hk : (truthy (dedup_key r.title r.phone r.address)
        && !(st.seen.contains (keyStr (dedup_key r.title r.phone r.address)))) with
    | false =>
      rw [processRecord_skip scrape re rw limit query st r hk]
      exact ⟨Nat.le_refl _, hle, by simp [progressPairs]⟩
    | true =>
      cases hf : fails_filter scrape re rw r with
      | true =>
        rw [processRecord_filtered scrape re rw limit query st r hl hk hf,
          processRecord_filtered_pairs scrape re rw limit query st r hl hk hf]
        exact ⟨Nat.le_refl _, hle, by simp⟩
      | false =>
        rw [processRecord_accept scrape re rw limit query st r hl hk hf,
          processRecord_accept_pairs scrape re rw limit query st r hl hk hf]
        refine ⟨by simp, ?_, ?_⟩
        · simp only [List.length_append, List.length_cons, List.length_nil]
          omega
        · simp only [List.length_append, List.length_cons, List.length_nil]
          rw [show st.leads.length + (0 + 1) - st.leads.length = 1 from by omega]
          rfl

theorem processRecords_progress (scrape : String → String) (re rw : Bool)
    (limit : Nat) (query : String) (st : GState) (rs : List RawRecord)
    (hle : st.leads.length ≤ limit) :
    st.leads.length ≤ (processRecords scrape re rw limit query st rs).2.leads.length
  ∧ (processRecords scrape re rw limit query st rs).2.leads.length ≤ limit
  ∧ progressPairs (processRecords scrape re rw limit query st rs).1 =
      (List.range' (st.leads.length + 1)
        ((processRecords scrape re rw limit query st rs).2.leads.length - st.leads.length)).map
        (fun c => (c, limit)) := by
  induction rs generalizing st with
  | nil =>
    refine ⟨Nat.le_refl _, hle, ?_⟩
    simp [processRecords, progressPairs]
  | cons r rs ih =>
    obtain ⟨h1, h2, h3⟩ := processRecord_progress scrape re rw limit query st r hle
    obtain ⟨g1, g2, g3⟩ := ih (processRecord scrape re rw limit query st r).2 h2
    have hevs : (processRecords scrape re rw limit query st (r :: rs)).1 =
        (processRecord scrape re rw limit query st r).1 ++
        (processRecords scrape re rw limit query
          (processRecord scrape re rw limit query st r).2 rs).1 := rfl
    have hst : (processRecords scrape re rw limit query st (r :: rs)).2 =
        (processRecords scrape re rw limit query
          (processRecord scrape re rw limit query st r).2 rs).2 := rfl
    rw [hevs, hst]
    refine ⟨Nat.le_trans h1 g1, g2, ?_⟩
    rw [progressPairs_append, h3, g3, ← List.map_append]
    rw [show (processRecord scrape re rw limit query st r).2.leads.length + 1 =
      st.leads.length + 1 + ((processRecord scrape re rw limit query st r).2.leads.length -
        st.leads.length) from by omega]
    rw [range1_append]
    congr 2
    omega

theorem genLoop_progress (provider : Nat → Except String (List RawRecord))
    (scrape : String → String) (re rw : Bool) (limit : Nat) (query : String)
    (fuel : Nat) : ∀ (start : Nat) (st : GState),
    st.leads.length ≤ limit →
    (st.leads.length ≤ (genLoop provider scrape re rw limit query fuel start st).2.1.leads.length
  ∧ (genLoop provider scrape re rw limit query fuel start st).2.1.leads.length ≤ limit
  ∧ progressPairs (genLoop provider scrape re rw limit query fuel start st).1 =
      (List.range' (st.leads.length + 1)
        ((genLoop provider scrape re rw limit query fuel start st).2.1.leads.length
          - st.leads.length)).map (fun c => (c, limit))) := by
  induction fuel with
  | zero =>
    intro start st hle
    refine ⟨Nat.le_refl _, hle, ?_⟩
    simp [genLoop, progressPairs]
  | succ fuel ih =>
    intro start st hle
    simp only [genLoop]
    split
    · refine ⟨Nat.le_refl _, hle, ?_⟩
      simp [progressPairs]
    · split
      · refine ⟨Nat.le_refl _, hle, ?_⟩
        simp [progressPairs]
      · refine ⟨Nat.le_refl _, hle, ?_⟩
        simp [progressPairs]
      · next r rs _ =>
        obtain ⟨h1, h2, h3⟩ := processRecords_progress scrape re rw limit query st (r :: rs) hle
        obtain ⟨g1, g2, g3⟩ := ih (start + 20)
          (processRecords scrape re rw limit query st (r :: rs)).2 h2
        dsimp only
        refine ⟨Nat.le_trans h1 g1, g2, ?_⟩
        show progressPairs (Event.log _ :: (_ ++ _)) = _
        rw [show ∀ (e : String) (a b : List Event),
            progressPairs (Event.log e :: (a ++ b)) = progressPairs (a ++ b)
          from fun _ _ _ => rfl]
        rw [progressPairs_append, h3, g3, ← List.map_append]
        rw [show (processRecords scrape re rw limit query st (r :: rs)).2.leads.length + 1 =
          st.leads.length + 1 +
            ((processRecords scrape re rw limit query st (r :: rs)).2.leads.length -
              st.leads.length) from by omega]
        rw [range1_append]
        congr 2
        omega

/-- The progress pairs of a `generate_leads` trace are those of its loop. -/
theorem generate_leads_pairs (provider : Nat → Except String (List RawRecord))
    (scrape : String → String) (keyword location : String) (limit : Nat)
    (re rw : Bool) (fn : String) (fuel : Nat) :
    progressPairs (generate_leads provider scrape keyword location limit re rw fn fuel).1 =
    progressPairs (genLoop provider scrape re rw limit (keyword ++ " " ++ location)
      fuel 0 ⟨[], []⟩).1 := by
  simp only [generate_leads]
  cases hex : (genLoop provider scrape re rw limit (keyword ++ " " ++ location)
      fuel 0 ⟨[], []⟩).2.2 with
  | completed =>
    show progressPairs (Event.log _ :: (_ ++ _)) = _
    rw [show ∀ (e : String) (a b : List Event),
        progressPairs (Event.log e :: (a ++ b)) = progressPairs (a ++ b)
      from fun _ _ _ => rfl]
    rw [progressPairs_append]
    by_cases hn : (genLoop provider scrape re rw limit (keyword ++ " " ++ location)
        fuel 0 ⟨[], []⟩).2.1.leads.length ≠ 0
    · simp [hn, progressPairs_append, progressPairs]
    · simp [hn, progressPairs_append, progressPairs]
  | errored => rfl
  | fuelOut => rfl

/-- C5 (confirmed): over one `generate_leads` run, the progress events carry
`total = limit` throughout and counts exactly `1, 2, ..., k` where `k` is
the number of accepted records — so `count` is non-decreasing, increases by
exactly 1 per accepted record, never exceeds `total`, and at most `limit`
progress events are emitted. -/
theorem monotonic_progress (provider : Nat → Except String (List RawRecord))
    (scrape : String → String) (keyword location : String) (limit : Nat)
    (re rw : Bool) (fn : String) (fuel : Nat) :
    progressPairs (generate_leads provider scrape keyword location limit re rw fn fuel).1 =
      (List.range' 1
        (generate_leads provider scrape keyword location limit re rw fn fuel).2.1.length).map
        (fun c => (c, limit))
  ∧ (generate_leads provider scrape keyword location limit re rw fn fuel).2.1.length
      ≤ limit := by
  obtain ⟨h1, h2, h3⟩ := genLoop_progress provider scrape re rw limit
    (keyword ++ " " ++ location) fuel 0 ⟨[], []⟩ (Nat.zero_le _)
  rw [generate_leads_pairs, generate_leads_leads]
  exact ⟨by rw [h3]; rfl, h2⟩

/-! ## C4 : filter semantics -/

/-- A truthy value's key string is nonempty. -/
theorem keyStr_ne_of_truthy {o : Option String} (h : truthy o = true) : keyStr o ≠ "" := by
  cases o with
  | none => cases h
  | some s =>
    simp only [truthy, decide_eq_true_eq] at h
    simpa [keyStr] using h

theorem processRecord_seen_mono (scrape : String → String) (re rw : Bool)
    (limit : Nat) (query : String) (st : GState) (r : RawRecord) (x : String)
    (hx : x ∈ st.seen) : x ∈ (processRecord scrape re rw limit query st r).2.seen := by
  by_cases hl : limit ≤ st.leads.length
  · rw [processRecord_limit scrape re rw limit query st r hl]; exact hx
  · cases hk : (truthy (dedup_key r.title r.phone r.address)
        && !(st.seen.contains (keyStr (dedup_key r.title r.phone r.address)))) with
    | false => rw [processRecord_skip scrape re rw limit query st r hk]; exact hx
    | true =>
      cases hf : fails_filter scrape re rw r with
      | true =>
        rw [processRecord_filtered scrape re rw limit query st r hl hk hf]
        exact List.mem_cons_of_mem _ hx
      | false =>
        rw [processRecord_accept scrape re rw limit query st r hl hk hf]
        exact List.mem_cons_of_mem _ hx

theorem processRecords_seen_mono (scrape : String → String) (re rw : Bool)
    (limit : Nat) (query : String) (st : GState) (rs : List RawRecord) (x : String)
    (hx : x ∈ st.seen) :
    x ∈ (processRecords scrape re rw limit query st rs).2.seen := by
  induction rs generalizing st with
  | nil => exact hx
  | cons r rs ih =>
    exact ih _ (processRecord_seen_mono scrape re rw limit query st r x hx)

/-- A record whose key is already in the seen-set is skipped with no events
and no state change. -/
theorem processRecord_seen_skip (scrape : String → String) (re rw : Bool)
    (limit : Nat) (query : String) (st : GState) (r : RawRecord)
    (hx : keyStr (dedup_key r.title r.phone r.address) ∈ st.seen) :
    processRecord scrape re rw limit query st r = ([], st) := by
  apply processRecord_skip
  rw [contains_true_of_mem hx]
  simp

/-- C4 (confirmed): a record that passes dedup but fails an enabled
`require_email` / `require_website` filter is not persisted and gets no
progress event, yet its Identity Key is inserted into the seen-set; any
record with the same key arriving later in the same run — however many
records come in between — is silently skipped (no events, no enrichment,
no state change). -/
theorem filter_semantics (scrape : String → String) (re rw : Bool)
    (limit : Nat) (query : String) (st : GState) (r : RawRecord)
    (hl : ¬ limit ≤ st.leads.length)
    (hk : (truthy (dedup_key r.title r.phone r.address)
      && !(st.seen.contains (keyStr (dedup_key r.title r.phone r.address)))) = true)
    (hf : fails_filter scrape re rw r = true) :
    (processRecord scrape re rw limit query st r).2.leads = st.leads
  ∧ progressPairs (processRecord scrape re rw limit query st r).1 = []
  ∧ keyStr (dedup_key r.title r.phone r.address)
      ∈ (processRecord scrape re rw limit query st r).2.seen
  ∧ ∀ (rs : List RawRecord) (r2 : RawRecord),
      keyStr (dedup_key r2.title r2.phone r2.address)
        = keyStr (dedup_key r.title r.phone r.address) →
      processRecord scrape re rw limit query
        (processRecords scrape re rw limit query
          (processRecord scrape re rw limit query st r).2 rs).2 r2 =
      ([], (processRecords scrape re rw limit query
        (processRecord scrape re rw limit query st r).2 rs).2) := by
  have hstate := processRecord_filtered scrape re rw limit query st r hl hk hf
  refine ⟨by rw [hstate], processRecord_filtered_pairs scrape re rw limit query st r hl hk hf,
    by rw [hstate]; exact List.mem_cons_self _ _, ?_⟩
  intro rs r2 hk2
  apply processRecord_seen_skip
  rw [hk2]
  apply processRecords_seen_mono
  rw [hstate]
  exact List.mem_cons_self _ _

/-- A record used to witness the filter path at concrete inputs. -/
def wRec : RawRecord :=
  { title := some "T", phone := none, address := some "A", website := some "w.com",
    rating := none, reviews := none, type := none }

/-- Witness for `filter_semantics` at concrete inputs: `require_email` on,
enrichment finds no e-mail. -/
theorem filter_semantics_witness :
    (processRecord (fun _ => "") true false 3 "q" ⟨[], []⟩ wRec).2.leads
        = (⟨[], []⟩ : GState).leads
  ∧ progressPairs (processRecord (fun _ => "") true false 3 "q" ⟨[], []⟩ wRec).1 = []
  ∧ keyStr (dedup_key wRec.title wRec.phone wRec.address)
      ∈ (processRecord (fun _ => "") true false 3 "q" ⟨[], []⟩ wRec).2.seen
  ∧ processRecord (fun _ => "") true false 3 "q"
        (processRecords (fun _ => "") true false 3 "q"
          (processRecord (fun _ => "") true false 3 "q" ⟨[], []⟩ wRec).2 [wRec]).2 wRec =
      ([], (processRecords (fun _ => "") true false 3 "q"
        (processRecord (fun _ => "") true false 3 "q" ⟨[], []⟩ wRec).2 [wRec]).2) := by
  have h := filter_semantics (fun _ => "") true false 3 "q" ⟨[], []⟩ wRec
    (by decide) (by decide) (by decide)
  exact ⟨h.1, h.2.1, h.2.2.1, h.2.2.2 [wRec] wRec rfl⟩

/-! ## C7 : per-query recovery from provider failures -/

/-- In the plain loops, a provider exception on one query has exactly the
same effect as that query returning an empty page. -/
theorem plain_query_error_eq_empty (provider : String → Except String (List RawRecord))
    (limit : Nat) (category city : String) (q0 e : String)
    (h : provider q0 = .error e) (st : PState) (q : String) :
    plain_query (fun q => if q = q0 then Except.ok [] else provider q)
      limit category city st q
    = plain_query provider limit category city st q := by
  by_cases hq : q = q0
  · subst hq
    simp [plain_query, h]
  · simp [plain_query, hq]

/-- C7 amended part: `generate_400_leads.py:fetch_leads` abandons only the
failing query — a run over a provider failing on `q0` equals the run where
`q0` just returns no results; all other queries proceed. -/
theorem provider_failure_per_query (provider : String → Except String (List RawRecord))
    (base_queries locations : List String) (city : String) (limit : Nat)
    (category : String) (q0 e : String) (h : provider q0 = .error e) :
    fetch_leads_400 (fun q => if q = q0 then Except.ok [] else provider q)
      base_queries locations city limit category
    = fetch_leads_400 provider base_queries locations city limit category := by
  unfold fetch_leads_400
  suffices hs : ∀ (locs : List String) (st : PState),
      locs.foldl (fun st loc => base_queries.foldl (fun st qb =>
        plain_query (fun q => if q = q0 then Except.ok [] else provider q)
          limit category city st (qb ++ " " ++ loc)) st) st
    = locs.foldl (fun st loc => base_queries.foldl (fun st qb =>
        plain_query provider limit category city st (qb ++ " " ++ loc)) st) st by
    exact hs locations ⟨[], []⟩
  intro locs
  induction locs with
  | nil => intro st; rfl
  | cons loc locs ihl =>
    intro st
    rw [List.foldl_cons, List.foldl_cons, ihl]
    congr 1
    clear ihl
    induction base_queries generalizing st with
    | nil => rfl
    | cons qb qbs ihq =>
      rw [List.foldl_cons, List.foldl_cons,
        plain_query_error_eq_empty provider limit category city q0 e h st (qb ++ " " ++ loc),
        ihq]

/-- A provider whose first page succeeds and whose second fetch raises. -/
def cex_provider : Nat → Except String (List RawRecord) :=
  fun start => if start = 0 then Except.ok [wRec] else Except.error "boom"

/-- C7 counterexample part: in `scraper.py:generate_leads` a provider
failure does *not* merely abandon the current query — the whole run stops in
the error state: the trace gains an `error` event and never reaches `done`,
although a lead had already been accepted and the run was not finished. -/
theorem provider_failure_counterexample :
    (generate_leads cex_provider (fun _ => "") "k" "l" 3 false false "f.xlsx" 5).2.2
        = LoopExit.errored
  ∧ ((generate_leads cex_provider (fun _ => "") "k" "l" 3 false false "f.xlsx" 5).1.any
        isDone) = false
  ∧ ((generate_leads cex_provider (fun _ => "") "k" "l" 3 false false "f.xlsx" 5).1.any
        isError) = true
  ∧ (generate_leads cex_provider (fun _ => "") "k" "l" 3 false false "f.xlsx" 5).2.1.length
        = 1 := by
  decide

/-- Witness for `provider_failure_per_query` at concrete inputs. -/
theorem provider_failure_per_query_witness :
    fetch_leads_400
        (fun q => if q = "a x" then Except.ok [] else
          (fun q' => if q' = "a x" then Except.error "boom" else Except.ok [wRec]) q)
        ["a", "b"] ["x"] "c" 5 "cat"
    = fetch_leads_400
        (fun q' => if q' = "a x" then Except.error "boom" else Except.ok [wRec])
        ["a", "b"] ["x"] "c" 5 "cat" := by
  exact provider_failure_per_query
    (fun q' => if q' = "a x" then Except.error "boom" else Except.ok [wRec])
    ["a", "b"] ["x"] "c" 5 "cat" "a x" "boom" (by simp)

/-! ## C9 : termination with a finite provider -/

theorem genLoop_no_fuelOut (provider : Nat → Except String (List RawRecord))
    (scrape : String → String) (re rw : Bool) (limit : Nat) (query : String) :
    ∀ (k fuel start : Nat) (st : GState),
    (∀ s, start + 20 * k ≤ s → provider s = .ok []) → k < fuel →
    (genLoop provider scrape re rw limit query fuel start st).2.2 ≠ LoopExit.fuelOut := by
  intro k
  induction k with
  | zero =>
    intro fuel start st hp hf
    match fuel, hf with
    | fuel + 1, _ =>
      have hps : provider start = .ok [] := hp start (by omega)
      simp only [genLoop]
      split
      · simp
      · rw [hps]
        simp
  | succ k ih =>
    intro fuel start st hp hf
    match fuel, hf with
    | fuel + 1, _ =>
      simp only [genLoop]
      split
      · simp
      · cases hps : provider start with
        | error e => simp
        | ok results =>
          cases results with
          | nil => simp
          | cons r rs =>
            have := ih fuel (start + 20)
              (processRecords scrape re rw limit query st (r :: rs)).2
              (fun s hs => hp s (by omega)) (by omega)
            simpa using this

theorem genLoop_succ_limit (provider : Nat → Except String (List RawRecord))
    (scrape : String → String) (re rw : Bool) (limit : Nat) (query : String)
    (fuel start : Nat) (st : GState) (hl : limit ≤ st.leads.length) :
    genLoop provider scrape re rw limit query (fuel + 1) start st
      = ([], st, LoopExit.completed) := by
  simp only [genLoop]
  rw [if_pos hl]

theorem genLoop_succ_error (provider : Nat → Except String (List RawRecord))
    (scrape : String → String) (re rw : Bool) (limit : Nat) (query : String)
    (fuel start : Nat) (st : GState) (e : String)
    (hl : ¬ limit ≤ st.leads.length) (hps : provider start = .error e) :
    genLoop provider scrape re rw limit query (fuel + 1) start st
      = ([Event.log ("Fetching results from SerpAPI (start=" ++ toString start ++ ")..."),
          Event.error ("Google Maps/SerpAPI Error: " ++ e)], st, LoopExit.errored) := by
  simp only [genLoop]
  rw [if_neg hl, hps]

theorem genLoop_succ_nil (provider : Nat → Except String (List RawRecord))
    (scrape : String → String) (re rw : Bool) (limit : Nat) (query : String)
    (fuel start : Nat) (st : GState)
    (hl : ¬ limit ≤ st.leads.length) (hps : provider start = .ok []) :
    genLoop provider scrape re rw limit query (fuel + 1) start st
      = ([Event.log ("Fetching results from SerpAPI (start=" ++ toString start ++ ")..."),
          Event.log "No more results found from Google Maps."], st, LoopExit.completed) := by
  simp only [genLoop]
  rw [if_neg hl, hps]

theorem genLoop_succ_cons (provider : Nat → Except String (List RawRecord))
    (scrape : String → String) (re rw : Bool) (limit : Nat) (query : String)
    (fuel start : Nat) (st : GState) (r : RawRecord) (rs : List RawRecord)
    (hl : ¬ limit ≤ st.leads.length) (hps : provider start = .ok (r :: rs)) :
    genLoop provider scrape re rw limit query (fuel + 1) start st
      = (Event.log ("Fetching results from SerpAPI (start=" ++ toString start ++ ")...") ::
          ((processRecords scrape re rw limit query st (r :: rs)).1 ++
            (genLoop provider scrape re rw limit query fuel (start + 20)
              (processRecords scrape re rw limit query st (r :: rs)).2).1),
         (genLoop provider scrape re rw limit query fuel (start + 20)
           (processRecords scrape re rw limit query st (r :: rs)).2).2.1,
         (genLoop provider scrape re rw limit query fuel (start + 20)
           (processRecords scrape re rw limit query st (r :: rs)).2).2.2) := by
  simp only [genLoop]
  rw [if_neg hl, hps]

theorem genLoop_errored_last (provider : Nat → Except String (List RawRecord))
    (scrape : String → String) (re rw : Bool) (limit : Nat) (query : String) :
    ∀ (fuel start : Nat) (st : GState),
    (genLoop provider scrape re rw limit query fuel start st).2.2 = LoopExit.errored →
    ∃ msg, (genLoop provider scrape re rw limit query fuel start st).1.getLast?
      = some (Event.error msg) := by
  intro fuel
  induction fuel with
  | zero => intro start st h; cases h
  | succ fuel ih =>
    intro start st h
    by_cases hl : limit ≤ st.leads.length
    · rw [genLoop_succ_limit provider scrape re rw limit query fuel start st hl] at h
      cases h
    · cases hps : provider start with
      | error e =>
        rw [genLoop_succ_error provider scrape re rw limit query fuel start st e hl hps]
        exact ⟨_, rfl⟩
      | ok results =>
        cases results with
        | nil =>
          rw [genLoop_succ_nil provider scrape re rw limit query fuel start st hl hps] at h
          cases h
        | cons r rs =>
          rw [genLoop_succ_cons provider scrape re rw limit query fuel start st r rs hl hps]
            at h ⊢
          simp only [] at h
          obtain ⟨msg, hlast⟩ := ih (start + 20)
            (processRecords scrape re rw limit query st (r :: rs)).2 h
          have hne : (genLoop provider scrape re rw limit query fuel (start + 20)
              (processRecords scrape re rw limit query st (r :: rs)).2).1 ≠ [] := by
            intro h0
            rw [h0] at hlast
            cases hlast
          refine ⟨msg, ?_⟩
          show (Event.log _ :: (_ ++ _)).getLast? = _
          rw [show (Event.log ("Fetching results from SerpAPI (start=" ++
              toString start ++ ")...") ::
              ((processRecords scrape re rw limit query st (r :: rs)).1 ++
                (genLoop provider scrape re rw limit query fuel (start + 20)
                  (processRecords scrape re rw limit query st (r :: rs)).2).1))
            = (Event.log ("Fetching results from SerpAPI (start=" ++
                toString start ++ ")...") ::
                (processRecords scrape re rw limit query st (r :: rs)).1) ++
              (genLoop provider scrape re rw limit query fuel (start + 20)
                (processRecords scrape re rw limit query st (r :: rs)).2).1
            from by simp]
          rw [List.getLast?_append_of_ne_nil _ hne]
          exact hlast

/-- The exit flag of `generate_leads` is its loop's exit flag. -/
theorem generate_leads_exit (provider : Nat → Except String (List RawRecord))
    (scrape : String → String) (keyword location : String) (limit : Nat)
    (re rw : Bool) (fn : String) (fuel : Nat) :
    (generate_leads provider scrape keyword location limit re rw fn fuel).2.2 =
    (genLoop provider scrape re rw limit (keyword ++ " " ++ location)
      fuel 0 ⟨[], []⟩).2.2 := by
  simp only [generate_leads]
  cases hex : (genLoop provider scrape re rw limit (keyword ++ " " ++ location)
    fuel 0 ⟨[], []⟩).2.2 <;> rfl

theorem trace_last_done (a : Event) (l1 l2 : List Event) (m f p : String) (c : Nat) :
    (a :: (l1 ++ (l2 ++ [Event.log m, Event.done f p c]))).getLast?
      = some (Event.done f p c) := by
  rw [show a :: (l1 ++ (l2 ++ [Event.log m, Event.done f p c]))
      = (a :: (l1 ++ (l2 ++ [Event.log m]))) ++ [Event.done f p c] from by simp]
  exact getLast?_concat' _ _

theorem generate_leads_last_terminal (provider : Nat → Except String (List RawRecord))
    (scrape : String → String) (keyword location : String) (limit : Nat)
    (re rw : Bool) (fn : String) (fuel : Nat)
    (h : (genLoop provider scrape re rw limit (keyword ++ " " ++ location)
      fuel 0 ⟨[], []⟩).2.2 ≠ LoopExit.fuelOut) :
    ∃ ev, (generate_leads provider scrape keyword location limit re rw fn fuel).1.getLast?
      = some ev ∧ isTerminal ev = true := by
  simp only [generate_leads]
  cases hex : (genLoop provider scrape re rw limit (keyword ++ " " ++ location)
      fuel 0 ⟨[], []⟩).2.2 with
  | completed =>
    exact ⟨_, trace_last_done _ _ _ _ _ _ _, rfl⟩
  | errored =>
    obtain ⟨msg, hlast⟩ := genLoop_errored_last provider scrape re rw limit
      (keyword ++ " " ++ location) fuel 0 ⟨[], []⟩ hex
    have hne : (genLoop provider scrape re rw limit (keyword ++ " " ++ location)
        fuel 0 ⟨[], []⟩).1 ≠ [] := by
      intro h0
      rw [h0] at hlast
      cases hlast
    refine ⟨Event.error msg, ?_, rfl⟩
    show (Event.log _ :: (genLoop provider scrape re rw limit
      (keyword ++ " " ++ location) fuel 0 ⟨[], []⟩).1).getLast? = _
    rw [show (Event.log ("Starting lead generation for '" ++ keyword ++ "' in '" ++
        location ++ "'. Target: " ++ toString limit ++ " leads.") ::
        (genLoop provider scrape re rw limit (keyword ++ " " ++ location)
          fuel 0 ⟨[], []⟩).1)
      = [Event.log ("Starting lead generation for '" ++ keyword ++ "' in '" ++
          location ++ "'. Target: " ++ toString limit ++ " leads.")] ++
        (genLoop provider scrape re rw limit (keyword ++ " " ++ location)
          fuel 0 ⟨[], []⟩).1 from by simp]
    rw [List.getLast?_append_of_ne_nil _ hne]
    exact hlast
  | fuelOut => exact absurd hex h

/-- C9 (confirmed): with a finite provider — one returning an empty page for
every cursor from page `N` on — `generate_leads` terminates: given fuel
beyond the provider's page bound the pagination loop never runs out (the
`while` loop exits by limit, exhaustion, or error in finitely many steps),
and the emitted trace ends in a terminal `done` or `error` event. -/
theorem finite_provider_termination (provider : Nat → Except String (List RawRecord))
    (scrape : String → String) (keyword location : String) (limit : Nat)
    (re rw : Bool) (fn : String) (N fuel : Nat)
    (hp : ∀ s, 20 * N ≤ s → provider s = .ok [])
    (hf : N < fuel) :
    (generate_leads provider scrape keyword location limit re rw fn fuel).2.2
      ≠ LoopExit.fuelOut
  ∧ ∃ ev, (generate_leads provider scrape keyword location limit re rw fn fuel).1.getLast?
      = some ev ∧ isTerminal ev = true := by
  have hnf : (genLoop provider scrape re rw limit (keyword ++ " " ++ location)
      fuel 0 ⟨[], []⟩).2.2 ≠ LoopExit.fuelOut :=
    genLoop_no_fuelOut provider scrape re rw limit (keyword ++ " " ++ location)
      N fuel 0 ⟨[], []⟩ (fun s hs => hp s (by omega)) hf
  refine ⟨?_, generate_leads_last_terminal provider scrape keyword location limit
    re rw fn fuel hnf⟩
  rw [generate_leads_exit]
  exact hnf

/-- Witness for `finite_provider_termination` at concrete inputs. -/
theorem finite_provider_termination_witness :
    (generate_leads (fun _ => Except.ok []) (fun _ => "") "k" "l" 3 false false
      "f.xlsx" 1).2.2 ≠ LoopExit.fuelOut :=
  (finite_provider_termination (fun _ => Except.ok []) (fun _ => "") "k" "l" 3
    false false "f.xlsx" 0 1 (fun _ _ => rfl) (by decide)).1

/-! ## C6 : enrichment isolation -/

/-- A failing HTTP fetch makes the contact scrape return `""` (never raise). -/
theorem scrape_email_from_website_fail (httpGet : String → Except String HttpPage)
    (contactGet : String → Except String (List String)) (url e : String)
    (h : httpGet (normalize_url url) = .error e) :
    scrape_email_from_website httpGet contactGet url = "" := by
  by_cases hu : url = ""
  · simp [scrape_email_from_website, hu]
  · simp [scrape_email_from_website, hu, h]

/-- A failing X-Ray search makes the decision-maker lookup return its
placeholder triple (never raise). -/
theorem find_decision_maker_fail (search : String → Except String (List OrganicResult))
    (company api_key e : String) (hk : ¬ api_key = "")
    (h : search (dm_query company) = .error e) :
    find_decision_maker_on_linkedin search company api_key
      = ("Not Found", "N/A", "N/A") := by
  simp [find_decision_maker_on_linkedin, hk, h]

/-- With both filters off no record is ever rejected by the filter stage. -/
theorem fails_filter_false (scrape : String → String) (r : RawRecord) :
    fails_filter scrape false false r = false := by
  simp [fails_filter]

theorem processRecord_email0 (re rw : Bool) (limit : Nat) (query : String)
    (st : GState) (r : RawRecord) (h : ∀ l ∈ st.leads, l.email = "") :
    ∀ l ∈ (processRecord (fun _ => "") re rw limit query st r).2.leads, l.email = "" := by
  by_cases hl : limit ≤ st.leads.length
  · rw [processRecord_limit _ re rw limit query st r hl]; exact h
  · cases hk : (truthy (dedup_key r.title r.phone r.address)
        && !(st.seen.contains (keyStr (dedup_key r.title r.phone r.address)))) with
    | false => rw [processRecord_skip _ re rw limit query st r hk]; exact h
    | true =>
      cases hf : fails_filter (fun _ => "") re rw r with
      | true =>
        rw [processRecord_filtered _ re rw limit query st r hl hk hf]
        exact h
      | false =>
        rw [processRecord_accept _ re rw limit query st r hl hk hf]
        intro l hm
        rcases List.mem_append.mp hm with hm | hm
        · exact h l hm
        · rcases List.mem_singleton.mp hm with rfl
          show scrape_email_value (fun _ => "") r = ""
          by_cases hw : truthy r.website <;> simp [scrape_email_value, hw]

theorem processRecords_email0 (re rw : Bool) (limit : Nat) (query : String)
    (st : GState) (rs : List RawRecord) (h : ∀ l ∈ st.leads, l.email = "") :
    ∀ l ∈ (processRecords (fun _ => "") re rw limit query st rs).2.leads,
      l.email = "" := by
  induction rs generalizing st with
  | nil => exact h
  | cons r rs ih => exact ih _ (processRecord_email0 re rw limit query st r h)

theorem genLoop_email0 (provider : Nat → Except String (List RawRecord))
    (re rw : Bool) (limit : Nat) (query : String) :
    ∀ (fuel start : Nat) (st : GState), (∀ l ∈ st.leads, l.email = "") →
    ∀ l ∈ (genLoop provider (fun _ => "") re rw limit query fuel start st).2.1.leads,
      l.email = "" := by
  intro fuel
  induction fuel with
  | zero => intro start st h; exact h
  | succ fuel ih =>
    intro start st h
    by_cases hl : limit ≤ st.leads.length
    · rw [genLoop_succ_limit provider _ re rw limit query fuel start st hl]; exact h
    · cases hps : provider start with
      | error e =>
        rw [genLoop_succ_error provider _ re rw limit query fuel start st e hl hps]
        exact h
      | ok results =>
        cases results with
        | nil =>
          rw [genLoop_succ_nil provider _ re rw limit query fuel start st hl hps]
          exact h
        | cons r rs =>
          rw [genLoop_succ_cons provider _ re rw limit query fuel start st r rs hl hps]
          exact ih (start + 20) _ (processRecords_email0 re rw limit query st (r :: rs) h)

theorem processRecord_core (scrape1 scrape2 : String → String) (limit : Nat)
    (query : String) (st1 st2 : GState) (r : RawRecord)
    (hseen : st1.seen = st2.seen)
    (hcore : st1.leads.map Lead.core = st2.leads.map Lead.core) :
    (processRecord scrape1 false false limit query st1 r).2.seen
      = (processRecord scrape2 false false limit query st2 r).2.seen
  ∧ (processRecord scrape1 false false limit query st1 r).2.leads.map Lead.core
      = (processRecord scrape2 false false limit query st2 r).2.leads.map Lead.core := by
  have hlen : st1.leads.length = st2.leads.length := by
    have := congrArg List.length hcore
    simpa using this
  by_cases hl : limit ≤ st1.leads.length
  · rw [processRecord_limit scrape1 false false limit query st1 r hl,
      processRecord_limit scrape2 false false limit query st2 r (hlen ▸ hl)]
    exact ⟨hseen, hcore⟩
  · have hl2 : ¬ limit ≤ st2.leads.length := by omega
    cases hk : (truthy (dedup_key r.title r.phone r.address)
        && !(st1.seen.contains (keyStr (dedup_key r.title r.phone r.address)))) with
    | false =>
      rw [processRecord_skip scrape1 false false limit query st1 r hk,
        processRecord_skip scrape2 false false limit query st2 r (by rw [← hseen]; exact hk)]
      exact ⟨hseen, hcore⟩
    | true =>
      rw [processRecord_accept scrape1 false false limit query st1 r hl hk
          (fails_filter_false scrape1 r),
        processRecord_accept scrape2 false false limit query st2 r hl2
          (by rw [← hseen]; exact hk) (fails_filter_false scrape2 r)]
      refine ⟨by rw [hseen], ?_⟩
      show (st1.leads ++ [mk_lead scrape1 query r]).map Lead.core
        = (st2.leads ++ [mk_lead scrape2 query r]).map Lead.core
      rw [List.map_append, List.map_append, hcore]
      rfl

theorem processRecords_core (scrape1 scrape2 : String → String) (limit : Nat)
    (query : String) (st1 st2 : GState) (rs : List RawRecord)
    (hseen : st1.seen = st2.seen)
    (hcore : st1.leads.map Lead.core = st2.leads.map Lead.core) :
    (processRecords scrape1 false false limit query st1 rs).2.seen
      = (processRecords scrape2 false false limit query st2 rs).2.seen
  ∧ (processRecords scrape1 false false limit query st1 rs).2.leads.map Lead.core
      = (processRecords scrape2 false false limit query st2 rs).2.leads.map Lead.core := by
  induction rs generalizing st1 st2 with
  | nil => exact ⟨hseen, hcore⟩
  | cons r rs ih =>
    obtain ⟨h1, h2⟩ := processRecord_core scrape1 scrape2 limit query st1 st2 r hseen hcore
    exact ih _ _ h1 h2

theorem genLoop_core (provider : Nat → Except String (List RawRecord))
    (scrape1 scrape2 : String → String) (limit : Nat) (query : String) :
    ∀ (fuel start : Nat) (st1 st2 : GState),
    st1.seen = st2.seen →
    st1.leads.map Lead.core = st2.leads.map Lead.core →
    (genLoop provider scrape1 false false limit query fuel start st1).2.1.leads.map Lead.core
      = (genLoop provider scrape2 false false limit query fuel start st2).2.1.leads.map
          Lead.core := by
  intro fuel
  induction fuel with
  | zero => intro start st1 st2 _ hcore; exact hcore
  | succ fuel ih =>
    intro start st1 st2 hseen hcore
    have hlen : st1.leads.length = st2.leads.length := by
      have := congrArg List.length hcore
      simpa using this
    by_cases hl : limit ≤ st1.leads.length
    · rw [genLoop_succ_limit provider scrape1 false false limit query fuel start st1 hl,
        genLoop_succ_limit provider scrape2 false false limit query fuel start st2
          (hlen ▸ hl)]
      exact hcore
    · have hl2 : ¬ limit ≤ st2.leads.length := by omega
      cases hps : provider start with
      | error e =>
        rw [genLoop_succ_error provider scrape1 false false limit query fuel start st1
            e hl hps,
          genLoop_succ_error provider scrape2 false false limit query fuel start st2
            e hl2 hps]
        exact hcore
      | ok results =>
        cases results with
        | nil =>
          rw [genLoop_succ_nil provider scrape1 false false limit query fuel start st1
              hl hps,
            genLoop_succ_nil provider scrape2 false false limit query fuel start st2
              hl2 hps]
          exact hcore
        | cons r rs =>
          rw [genLoop_succ_cons provider scrape1 false false limit query fuel start st1
              r rs hl hps,
            genLoop_succ_cons provider scrape2 false false limit query fuel start st2
              r rs hl2 hps]
          obtain ⟨h1, h2⟩ := processRecords_core scrape1 scrape2 limit query st1 st2
            (r :: rs) hseen hcore
          exact ih (start + 20) _ _ h1 h2

/-- A `single_page` provider exhausts by the second fetch, so fuel 2 always
completes the loop. -/
theorem single_page_completed (records : List RawRecord) (scrape : String → String)
    (re rw : Bool) (limit : Nat) (query : String) :
    (genLoop (single_page records) scrape re rw limit query 2 0 ⟨[], []⟩).2.2
      = LoopExit.completed := by
  by_cases hl : limit ≤ (⟨[], []⟩ : GState).leads.length
  · rw [genLoop_succ_limit (single_page records) scrape re rw limit query 1 0 ⟨[], []⟩ hl]
  · cases records with
    | nil =>
      rw [genLoop_succ_nil (single_page []) scrape re rw limit query 1 0 ⟨[], []⟩ hl rfl]
    | cons r rs =>
      rw [genLoop_succ_cons (single_page (r :: rs)) scrape re rw limit query 1 0 ⟨[], []⟩
        r rs hl rfl]
      by_cases hl2 : limit ≤ (processRecords scrape re rw limit query ⟨[], []⟩
          (r :: rs)).2.leads.length
      · rw [genLoop_succ_limit (single_page (r :: rs)) scrape re rw limit query 0 20 _ hl2]
      · rw [genLoop_succ_nil (single_page (r :: rs)) scrape re rw limit query 0 20 _ hl2 rfl]

/-- A completed loop makes `generate_leads` end its trace with `done`. -/
theorem generate_leads_completed_done (provider : Nat → Except String (List RawRecord))
    (scrape : String → String) (keyword location : String) (limit : Nat)
    (re rw : Bool) (fn : String) (fuel : Nat)
    (hex : (genLoop provider scrape re rw limit (keyword ++ " " ++ location)
      fuel 0 ⟨[], []⟩).2.2 = LoopExit.completed) :
    (generate_leads provider scrape keyword location limit re rw fn fuel).1.getLast?
      = some (Event.done fn ("generated_leads/" ++ fn)
          (generate_leads provider scrape keyword location limit re rw fn fuel).2.1.length) := by
  rw [generate_leads_leads]
  simp only [generate_leads]
  cases hex2 : (genLoop provider scrape re rw limit (keyword ++ " " ++ location)
      fuel 0 ⟨[], []⟩).2.2 with
  | completed => exact trace_last_done _ _ _ _ _ _ _
  | errored => cases hex.symm.trans hex2
  | fuelOut => cases hex.symm.trans hex2

/-- C6 (confirmed): every enrichment sub-step is failure-isolated.  A failing
HTTP fetch makes `scrape_email_from_website` return `""`; a failing X-Ray
search makes `find_decision_maker_on_linkedin` return
`("Not Found", "N/A", "N/A")`; and when the e-mail scrape always fails, a
`generate_leads` run (filters off) still accepts and persists exactly the
same records — with `""` as the e-mail placeholder — and still ends its
trace with a `done` event. -/
theorem enrichment_isolation (httpGet : String → Except String HttpPage)
    (contactGet : String → Except String (List String)) (url e : String)
    (search : String → Except String (List OrganicResult)) (company api_key e2 : String)
    (records : List RawRecord) (keyword location fn : String) (limit : Nat)
    (scrape2 : String → String)
    (h1 : httpGet (normalize_url url) = .error e)
    (h2 : ¬ api_key = "")
    (h3 : search (dm_query company) = .error e2) :
    scrape_email_from_website httpGet contactGet url = ""
  ∧ find_decision_maker_on_linkedin search company api_key = ("Not Found", "N/A", "N/A")
  ∧ (∀ l ∈ (generate_leads (single_page records) (fun _ => "") keyword location limit
        false false fn 2).2.1, l.email = "")
  ∧ (generate_leads (single_page records) (fun _ => "") keyword location limit
        false false fn 2).1.getLast?
      = some (Event.done fn ("generated_leads/" ++ fn)
          (generate_leads (single_page records) (fun _ => "") keyword location limit
            false false fn 2).2.1.length)
  ∧ (generate_leads (single_page records) scrape2 keyword location limit
        false false fn 2).2.1.map Lead.core
      = (generate_leads (single_page records) (fun _ => "") keyword location limit
          false false fn 2).2.1.map Lead.core := by
  refine ⟨scrape_email_from_website_fail httpGet contactGet url e h1,
    find_decision_maker_fail search company api_key e2 h2 h3, ?_, ?_, ?_⟩
  · rw [generate_leads_leads]
    exact genLoop_email0 (single_page records) false false limit
      (keyword ++ " " ++ location) 2 0 ⟨[], []⟩ (by intro l hl; cases hl)
  · exact generate_leads_completed_done (single_page records) (fun _ => "")
      keyword location limit false false fn 2
      (single_page_completed records (fun _ => "") false false limit
        (keyword ++ " " ++ location))
  · rw [generate_leads_leads, generate_leads_leads]
    exact genLoop_core (single_page records) scrape2 (fun _ => "") limit
      (keyword ++ " " ++ location) 2 0 ⟨[], []⟩ ⟨[], []⟩ rfl rfl

/-- Witness for `enrichment_isolation` at concrete inputs. -/
theorem enrichment_isolation_witness :
    scrape_email_from_website (fun _ => Except.error "timeout") (fun _ => Except.ok [])
      "x.com" = ""
  ∧ find_decision_maker_on_linkedin (fun _ => Except.error "boom") "Acme" "key"
      = ("Not Found", "N/A", "N/A") := by
  have h := enrichment_isolation (fun _ => Except.error "timeout") (fun _ => Except.ok [])
    "x.com" "timeout" (fun _ => Except.error "boom") "Acme" "key" "boom"
    [wRec] "k" "l" "f.xlsx" 3 (fun _ => "found@x.com") rfl (by decide) rfl
  exact ⟨h.1, h.2.1⟩

/-! ## C1 / C10 : resumable runs -/

/-- A falsy optional field renders as the empty CSV field. -/
theorem csvStr_of_not_truthy {o : Option String} (h : truthy o = false) : csvStr o = "" := by
  cases o with
  | none => rfl
  | some s =>
    simp only [truthy, decide_eq_false_iff_not, not_not] at h
    simpa [csvStr] using h

theorem csvStr_some (s : String) : csvStr (some s) = s := rfl

/-- The rows the resumable pipeline persists never have an empty recomputed
key (a truthy phone survives; a truthy address yields a `"|"`-containing
key; otherwise the truthy title survives). -/
theorem mk_row_key_ne (r : RawRecord) (email category query city : String)
    (ht : truthy (dedup_key r.title r.phone r.address) = true) :
    row_dedup_key (mk_row r email category query city) ≠ "" := by
  by_cases hp : truthy r.phone = true
  · cases hph : r.phone with
    | none => rw [hph] at hp; cases hp
    | some s =>
      have hs : s ≠ "" := by
        rw [hph] at hp
        simpa [truthy] using hp
      simp only [row_dedup_key, mk_row, hph, csvStr_some]
      rw [if_pos hs]
      exact hs
  · have hp' : truthy r.phone = false := by simpa using hp
    have hpc : csvStr r.phone = "" := csvStr_of_not_truthy hp'
    by_cases ha : truthy r.address = true
    · cases had : r.address with
      | none => rw [had] at ha; cases ha
      | some s =>
        have hs : s ≠ "" := by
          rw [had] at ha
          simpa [truthy] using ha
        simp only [row_dedup_key, mk_row, hpc, had, csvStr_some]
        rw [if_neg (by simp), if_pos hs]
        exact pipe_ne_empty _ _
    · have ha' : truthy r.address = false := by simpa using ha
      have hac : csvStr r.address = "" := csvStr_of_not_truthy ha'
      have htt : truthy r.title = true := by
        rw [dedup_key, if_neg (by simp [hp']), if_neg (by simp [ha'])] at ht
        exact ht
      cases htl : r.title with
      | none => rw [htl] at htt; cases htt
      | some s =>
        have hs : s ≠ "" := by
          rw [htl] at htt
          simpa [truthy] using htt
        simp only [row_dedup_key, mk_row, hpc, hac, htl, csvStr_some]
        rw [if_neg (by simp), if_neg (by simp)]
        exact hs

/-- Records for which the CSV round-trip preserves the Identity Key: every
record except those with an absent title, a falsy phone and a truthy
address (whose key renders the title as "None" but reloads as ""). -/
def resume_safe (r : RawRecord) : Prop :=
  r.title = none → (truthy r.phone = true ∨ truthy r.address = false)

instance (r : RawRecord) : Decidable (resume_safe r) := by
  unfold resume_safe
  infer_instance

/-- Key round-trip: for `resume_safe` records the key recomputed from the
persisted CSV row equals the original Identity Key. -/
theorem mk_row_key (r : RawRecord) (email category query city : String)
    (ht : truthy (dedup_key r.title r.phone r.address) = true)
    (hgood : resume_safe r) :
    row_dedup_key (mk_row r email category query city)
      = keyStr (dedup_key r.title r.phone r.address) := by
  by_cases hp : truthy r.phone = true
  · cases hph : r.phone with
    | none => rw [hph] at hp; cases hp
    | some s =>
      have hs : s ≠ "" := by
        rw [hph] at hp
        simpa [truthy] using hp
      simp only [row_dedup_key, mk_row, hph, csvStr_some]
      rw [if_pos hs, dedup_key, if_pos (by simpa [truthy] using hs)]
      rfl
  · have hp' : truthy r.phone = false := by simpa using hp
    have hpc : csvStr r.phone = "" := csvStr_of_not_truthy hp'
    by_cases ha : truthy r.address = true
    · cases had : r.address with
      | none => rw [had] at ha; cases ha
      | some s =>
        have hs : s ≠ "" := by
          rw [had] at ha
          simpa [truthy] using ha
        have htitle : r.title ≠ none := by
          intro h0
          rcases hgood h0 with h1 | h1
          · rw [h1] at hp'; cases hp'
          · rw [had] at h1; simp [truthy, hs] at h1
        cases htl : r.title with
        | none => exact absurd htl htitle
        | some t =>
          simp only [row_dedup_key, mk_row, hpc, had, htl, csvStr_some]
          rw [if_neg (by simp), if_pos hs]
          rw [dedup_key, if_neg (by simp [hp']), if_pos (by simpa [truthy] using hs)]
          rfl
    · have ha' : truthy r.address = false := by simpa using ha
      have hac : csvStr r.address = "" := csvStr_of_not_truthy ha'
      have htt : truthy r.title = true := by
        rw [dedup_key, if_neg (by simp [hp']), if_neg (by simp [ha'])] at ht
        exact ht
      cases htl : r.title with
      | none => rw [htl] at htt; cases htt
      | some t =>
        simp only [row_dedup_key, mk_row, hpc, hac, htl, csvStr_some]
        rw [if_neg (by simp), if_neg (by simp)]
        rw [dedup_key, if_neg (by simp [hp']), if_neg (by simp [ha'])]
        rfl

theorem fetch_step_limit (scrape : String → String) (limit : Nat)
    (category query city : String) (s : RState × FileState) (r : RawRecord)
    (hl : limit ≤ s.1.leads.length) :
    fetch_step scrape limit category query city s r = s := by
  simp only [fetch_step]
  rw [if_pos hl]

theorem fetch_step_skip (scrape : String → String) (limit : Nat)
    (category query city : String) (s : RState × FileState) (r : RawRecord)
    (hk : (truthy (dedup_key r.title r.phone r.address)
      && !(s.1.seen.contains (keyStr (dedup_key r.title r.phone r.address)))) = false) :
    fetch_step scrape limit category query city s r = s := by
  have hk' : ¬ ((truthy (dedup_key r.title r.phone r.address)
      && !(s.1.seen.contains (keyStr (dedup_key r.title r.phone r.address)))) = true) := by
    rw [hk]; simp
  by_cases hl : limit ≤ s.1.leads.length
  · simp only [fetch_step]; rw [if_pos hl]
  · simp only [fetch_step]; rw [if_neg hl, if_neg hk']

theorem fetch_step_accept (scrape : String → String) (limit : Nat)
    (category query city : String) (s : RState × FileState) (r : RawRecord)
    (hl : ¬ limit ≤ s.1.leads.length)
    (hk : (truthy (dedup_key r.title r.phone r.address)
      && !(s.1.seen.contains (keyStr (dedup_key r.title r.phone r.address)))) = true) :
    fetch_step scrape limit category query city s r =
      (⟨s.1.leads ++ [mk_row r (scrape_email_value scrape r) category query city],
        keyStr (dedup_key r.title r.phone r.address) :: s.1.seen⟩,
       save_lead_incrementally
         (mk_row r (scrape_email_value scrape r) category query city) s.2) := by
  simp only [fetch_step]
  rw [if_neg hl, if_pos hk]
  rfl

/-- Run-state/file invariant of the resumable pipeline: the file rows are
exactly the in-memory lead list, the seen-set holds exactly the recomputed
row keys, no persisted key is empty, and the keys are pairwise distinct. -/
def Sync (s : RState × FileState) : Prop :=
  ((s.2 = none ∧ s.1.leads = []) ∨ ∃ f, s.2 = some f ∧ f.rows = s.1.leads)
  ∧ (∀ x, x ∈ s.1.seen ↔ x ∈ s.1.leads.map row_dedup_key)
  ∧ (∀ row ∈ s.1.leads, row_dedup_key row ≠ "")
  ∧ (s.1.leads.map row_dedup_key).Nodup

theorem fetch_step_sync (scrape : String → String) (limit : Nat)
    (category query city : String) (s : RState × FileState) (r : RawRecord)
    (hgood : resume_safe r) (h : Sync s) :
    Sync (fetch_step scrape limit category query city s r) := by
  by_cases hl : limit ≤ s.1.leads.length
  · rw [fetch_step_limit scrape limit category query city s r hl]; exact h
  · cases hk : (truthy (dedup_key r.title r.phone r.address)
        && !(s.1.seen.contains (keyStr (dedup_key r.title r.phone r.address)))) with
    | false => rw [fetch_step_skip scrape limit category query city s r hk]; exact h
    | true =>
      have ht : truthy (dedup_key r.title r.phone r.address) = true :=
        ((Bool.and_eq_true _ _).mp hk).1
      have hnotseen : keyStr (dedup_key r.title r.phone r.address) ∉ s.1.seen :=
        not_mem_of_contains_false (by simpa using ((Bool.and_eq_true _ _).mp hk).2)
      have hrowkey : row_dedup_key
          (mk_row r (scrape_email_value scrape r) category query city)
          = keyStr (dedup_key r.title r.phone r.address) :=
        mk_row_key r _ category query city ht hgood
      have hsing : List.map row_dedup_key
          [mk_row r (scrape_email_value scrape r) category query city]
          = [keyStr (dedup_key r.title r.phone r.address)] := by
        simp [hrowkey]
      rw [fetch_step_accept scrape limit category query city s r hl hk]
      refine ⟨?_, ?_, ?_, ?_⟩
      · rcases h.1 with ⟨hf, hleads⟩ | ⟨f, hf, hrows⟩
        · refine Or.inr ⟨⟨lead_fieldnames,
            [mk_row r (scrape_email_value scrape r) category query city]⟩, ?_, ?_⟩
          · show save_lead_incrementally _ s.2 = _
            rw [hf]
            rfl
          · show _ = s.1.leads ++ [_]
            rw [hleads]
            rfl
        · refine Or.inr ⟨⟨f.header,
            f.rows ++ [mk_row r (scrape_email_value scrape r) category query city]⟩, ?_, ?_⟩
          · show save_lead_incrementally _ s.2 = _
            rw [hf]
            rfl
          · show _ = s.1.leads ++ [_]
            rw [hrows]
      · intro x
        show x ∈ _ :: s.1.seen ↔ x ∈ (s.1.leads ++ [_]).map row_dedup_key
        rw [List.map_append, List.mem_cons, List.mem_append, hsing]
        constructor
        · rintro (rfl | hx)
          · exact Or.inr (List.mem_singleton.mpr rfl)
          · exact Or.inl ((h.2.1 x).mp hx)
        · rintro (hx | hx)
          · exact Or.inr ((h.2.1 x).mpr hx)
          · exact Or.inl (List.mem_singleton.mp hx)
      · intro row hrow
        rcases List.mem_append.mp hrow with hrow | hrow
        · exact h.2.2.1 row hrow
        · rcases List.mem_singleton.mp hrow with rfl
          exact mk_row_key_ne r _ category query city ht
      · show ((s.1.leads ++ [_]).map row_dedup_key).Nodup
        rw [List.map_append]
        refine nodup_snoc h.2.2.2 ?_
        rw [hrowkey]
        intro hmem
        exact hnotseen ((h.2.1 _).mpr hmem)

theorem fetch_fold_sync (scrape : String → String) (limit : Nat)
    (category query city : String) (rs : List RawRecord) :
    ∀ (s : RState × FileState), (∀ r ∈ rs, resume_safe r) → Sync s →
    Sync (rs.foldl (fetch_step scrape limit category query city) s) := by
  induction rs with
  | nil => intro s _ h; exact h
  | cons r rs ih =>
    intro s hgood h
    exact ih _ (fun r2 h2 => hgood r2 (List.mem_cons_of_mem _ h2))
      (fetch_step_sync scrape limit category query city s r
        (hgood r (List.mem_cons_self _ _)) h)

theorem mem_of_contains_true {l : List String} {a : String}
    (h : l.contains a = true) : a ∈ l :=
  List.elem_iff.mp h

theorem contains_congr {a b : List String} (h : ∀ x, x ∈ a ↔ x ∈ b) (y : String) :
    a.contains y = b.contains y := by
  cases hb : b.contains y with
  | true => exact contains_true_of_mem ((h y).mpr (mem_of_contains_true hb))
  | false =>
    cases ha : a.contains y with
    | false => rfl
    | true =>
      exact absurd (contains_true_of_mem ((h y).mp (mem_of_contains_true ha)))
        (by rw [hb]; simp)

theorem resume_fold (rows : List Row) :
    ∀ (init : RState), (∀ row ∈ rows, row_dedup_key row ≠ "") →
    ((rows.foldl (fun st row =>
        let k := row_dedup_key row
        if k ≠ "" then ⟨st.leads ++ [row], k :: st.seen⟩ else st) init).leads
      = init.leads ++ rows)
  ∧ (∀ x, x ∈ (rows.foldl (fun st row =>
        let k := row_dedup_key row
        if k ≠ "" then ⟨st.leads ++ [row], k :: st.seen⟩ else st) init).seen
      ↔ x ∈ init.seen ∨ x ∈ rows.map row_dedup_key) := by
  induction rows with
  | nil =>
    intro init _
    exact ⟨by simp, by simp⟩
  | cons row rows ih =>
    intro init h
    have hne : row_dedup_key row ≠ "" := h row (List.mem_cons_self _ _)
    have hstep : (List.foldl (fun st row =>
        let k := row_dedup_key row
        if k ≠ "" then (⟨st.leads ++ [row], k :: st.seen⟩ : RState) else st)
          init (row :: rows))
      = List.foldl (fun st row =>
          let k := row_dedup_key row
          if k ≠ "" then (⟨st.leads ++ [row], k :: st.seen⟩ : RState) else st)
          ⟨init.leads ++ [row], row_dedup_key row :: init.seen⟩ rows := by
      rw [List.foldl_cons]
      congr 1
      show (if row_dedup_key row ≠ "" then _ else _) = _
      rw [if_pos hne]
    obtain ⟨ih1, ih2⟩ := ih ⟨init.leads ++ [row], row_dedup_key row :: init.seen⟩
      (fun r2 h2 => h r2 (List.mem_cons_of_mem _ h2))
    constructor
    · rw [hstep, ih1]
      simp
    · intro x
      rw [hstep, ih2 x]
      show (x ∈ row_dedup_key row :: init.seen ∨ _) ↔ _
      rw [List.mem_cons, List.map_cons, List.mem_cons]
      tauto

theorem resume_load_spec (f : CsvFile) (h : ∀ row ∈ f.rows, row_dedup_key row ≠ "") :
    (resume_load (some f)).leads = f.rows
  ∧ (∀ x, x ∈ (resume_load (some f)).seen ↔ x ∈ f.rows.map row_dedup_key) := by
  obtain ⟨h1, h2⟩ := resume_fold f.rows ⟨[], []⟩ h
  constructor
  · simp only [resume_load]
    rw [h1]
    rfl
  · intro x
    simp only [resume_load]
    rw [h2 x]
    simp

theorem fetch_sim (scrape : String → String) (limit : Nat)
    (category query city : String) (rs : List RawRecord) :
    ∀ (s1 s2 : RState) (file : FileState),
    s1.leads = s2.leads → (∀ x, x ∈ s1.seen ↔ x ∈ s2.seen) →
    ((rs.foldl (fetch_step scrape limit category query city) (s1, file)).1.leads
      = (rs.foldl (fetch_step scrape limit category query city) (s2, file)).1.leads)
  ∧ (∀ x, x ∈ (rs.foldl (fetch_step scrape limit category query city) (s1, file)).1.seen
      ↔ x ∈ (rs.foldl (fetch_step scrape limit category query city) (s2, file)).1.seen)
  ∧ (rs.foldl (fetch_step scrape limit category query city) (s1, file)).2
      = (rs.foldl (fetch_step scrape limit category query city) (s2, file)).2 := by
  induction rs with
  | nil => intro s1 s2 file hleads hseen; exact ⟨hleads, hseen, rfl⟩
  | cons r rs ih =>
    intro s1 s2 file hleads hseen
    rw [List.foldl_cons, List.foldl_cons]
    have hlen : s1.leads.length = s2.leads.length := by rw [hleads]
    have hcont : s1.seen.contains (keyStr (dedup_key r.title r.phone r.address))
        = s2.seen.contains (keyStr (dedup_key r.title r.phone r.address)) :=
      contains_congr hseen _
    by_cases hl : limit ≤ s1.leads.length
    · rw [fetch_step_limit scrape limit category query city (s1, file) r hl,
        fetch_step_limit scrape limit category query city (s2, file) r (hlen ▸ hl)]
      exact ih s1 s2 file hleads hseen
    · have hl2 : ¬ limit ≤ s2.leads.length := by omega
      cases hk : (truthy (dedup_key r.title r.phone r.address)
          && !(s1.seen.contains (keyStr (dedup_key r.title r.phone r.address)))) with
      | false =>
        rw [fetch_step_skip scrape limit category query city (s1, file) r hk,
          fetch_step_skip scrape limit category query city (s2, file) r
            (by rw [← hcont]; exact hk)]
        exact ih s1 s2 file hleads hseen
      | true =>
        rw [fetch_step_accept scrape limit category query city (s1, file) r hl hk,
          fetch_step_accept scrape limit category query city (s2, file) r hl2
            (by rw [← hcont]; exact hk)]
        refine ih _ _ _ ?_ ?_
        · show s1.leads ++ _ = s2.leads ++ _
          rw [hleads]
        · intro x
          show x ∈ _ :: s1.seen ↔ x ∈ _ :: s2.seen
          rw [List.mem_cons, List.mem_cons, hseen x]

/-- A fresh Run Target satisfies the invariant. -/
theorem sync_init : Sync ((⟨[], []⟩ : RState), (none : FileState)) :=
  ⟨Or.inl ⟨rfl, rfl⟩, by simp, by simp, by simp⟩

/-- C1 (amended, confirmed for round-trip-safe records): a single resumable
run over `p ++ q` and a prefix run over `p` followed by a resumed run over
`q` against the same Run Target produce *identical* files — hence the same
persisted set by Identity Key — with pairwise-distinct keys, provided every
record's Identity Key survives the CSV round-trip (`resume_safe`). -/
theorem idempotent_resume_amended (scrape : String → String) (limit : Nat)
    (category query city : String) (p q : List RawRecord)
    (hgood : ∀ r ∈ p ++ q, resume_safe r) :
    (fetch_run scrape limit category query city none (p ++ q)).2
      = (fetch_run scrape limit category query city
          (fetch_run scrape limit category query city none p).2 q).2
  ∧ (file_keys (fetch_run scrape limit category query city none (p ++ q)).2).Nodup := by
  have hrunA : fetch_run scrape limit category query city none (p ++ q)
      = q.foldl (fetch_step scrape limit category query city)
          (p.foldl (fetch_step scrape limit category query city)
            ((⟨[], []⟩ : RState), (none : FileState))) := by
    show (p ++ q).foldl (fetch_step scrape limit category query city)
        ((⟨[], []⟩ : RState), (none : FileState)) = _
    rw [List.foldl_append]
  have hsync1 : Sync (p.foldl (fetch_step scrape limit category query city)
      ((⟨[], []⟩ : RState), (none : FileState))) :=
    fetch_fold_sync scrape limit category query city p _
      (fun r hr => hgood r (List.mem_append.mpr (Or.inl hr))) sync_init
  have hrel : ((resume_load (p.foldl (fetch_step scrape limit category query city)
        ((⟨[], []⟩ : RState), (none : FileState))).2).leads
      = (p.foldl (fetch_step scrape limit category query city)
          ((⟨[], []⟩ : RState), (none : FileState))).1.leads)
    ∧ (∀ x, x ∈ (resume_load (p.foldl (fetch_step scrape limit category query city)
        ((⟨[], []⟩ : RState), (none : FileState))).2).seen
      ↔ x ∈ (p.foldl (fetch_step scrape limit category query city)
          ((⟨[], []⟩ : RState), (none : FileState))).1.seen) := by
    rcases hsync1.1 with ⟨hf, hleads⟩ | ⟨f, hf, hrows⟩
    · rw [hf]
      constructor
      · rw [hleads]
        rfl
      · intro x
        constructor
        · intro hx
          cases hx
        · intro hx
          have := (hsync1.2.1 x).mp hx
          rw [hleads] at this
          cases this
    · have hkeys : ∀ row ∈ f.rows, row_dedup_key row ≠ "" := by
        intro row hr
        exact hsync1.2.2.1 row (hrows ▸ hr)
      obtain ⟨r1, r2⟩ := resume_load_spec f hkeys
      rw [hf]
      constructor
      · rw [r1, hrows]
      · intro x
        rw [r2 x, hrows]
        exact (hsync1.2.1 x).symm
  obtain ⟨sim1, sim2, sim3⟩ := fetch_sim scrape limit category query city q
    (p.foldl (fetch_step scrape limit category query city)
      ((⟨[], []⟩ : RState), (none : FileState))).1
    (resume_load (p.foldl (fetch_step scrape limit category query city)
      ((⟨[], []⟩ : RState), (none : FileState))).2)
    (p.foldl (fetch_step scrape limit category query city)
      ((⟨[], []⟩ : RState), (none : FileState))).2
    hrel.1.symm (fun x => (hrel.2 x).symm)
  constructor
  · rw [hrunA]
    exact sim3
  · have hsyncA : Sync ((p ++ q).foldl (fetch_step scrape limit category query city)
        ((⟨[], []⟩ : RState), (none : FileState))) :=
      fetch_fold_sync scrape limit category query city (p ++ q) _ hgood sync_init
    show (file_keys ((p ++ q).foldl (fetch_step scrape limit category query city)
        ((⟨[], []⟩ : RState), (none : FileState))).2).Nodup
    rcases hsyncA.1 with ⟨hf, _⟩ | ⟨f, hf, hrows⟩
    · rw [hf]
      simp [file_keys]
    · rw [hf]
      show (f.rows.map row_dedup_key).Nodup
      rw [hrows]
      exact hsyncA.2.2.2

/-- The record breaking idempotent resume: no name, no phone, an address. -/
def cexRec : RawRecord :=
  { title := none, phone := none, address := some "A St", website := none,
    rating := none, reviews := none, type := none }

/-- C1 (counterexample): with a record lacking a name but having an address,
a full run persists one row, while a prefix run plus a resumed run persists
the same business twice — the resumed Seen-Set holds the key "|A St" while
the record recomputes to "None|A St", so the restart re-accepts it and the
final file has a duplicate Identity Key. -/
theorem idempotent_resume_counterexample :
    file_len (fetch_run (fun _ => "") 2 "c" "q" "ct" none [cexRec, cexRec]).2 = 1
  ∧ file_len (fetch_run (fun _ => "") 2 "c" "q" "ct"
      (fetch_run (fun _ => "") 2 "c" "q" "ct" none [cexRec]).2 [cexRec]).2 = 2
  ∧ file_keys (fetch_run (fun _ => "") 2 "c" "q" "ct"
      (fetch_run (fun _ => "") 2 "c" "q" "ct" none [cexRec]).2 [cexRec]).2
      = ["|A St", "|A St"]
  ∧ ¬ (file_keys (fetch_run (fun _ => "") 2 "c" "q" "ct"
      (fetch_run (fun _ => "") 2 "c" "q" "ct" none [cexRec]).2 [cexRec]).2).Nodup := by
  refine ⟨rfl, rfl, rfl, ?_⟩
  decide

/-- Witness for `idempotent_resume_amended` at concrete inputs. -/
theorem idempotent_resume_amended_witness :
    (fetch_run (fun _ => "") 2 "c" "q" "ct" none ([wRec] ++ [wRec])).2
      = (fetch_run (fun _ => "") 2 "c" "q" "ct"
          (fetch_run (fun _ => "") 2 "c" "q" "ct" none [wRec]).2 [wRec]).2
  ∧ (file_keys (fetch_run (fun _ => "") 2 "c" "q" "ct" none ([wRec] ++ [wRec])).2).Nodup := by
  exact idempotent_resume_amended (fun _ => "") 2 "c" "q" "ct" [wRec] [wRec] (by decide)

theorem save_len (lead : Row) (file : FileState) :
    file_len (save_lead_incrementally lead file) = file_len file + 1 := by
  cases file <;> simp [save_lead_incrementally, file_len]

theorem save_keys (lead : Row) (file : FileState) :
    file_keys (save_lead_incrementally lead file)
      = file_keys file ++ [row_dedup_key lead] := by
  cases file <;> simp [save_lead_incrementally, file_keys]

theorem fetch_fold_cap (scrape : String → String) (limit : Nat)
    (category query city : String) (rs : List RawRecord) :
    ∀ (s : RState × FileState),
    ((rs.foldl (fetch_step scrape limit category query city) s).1.leads.length
      ≤ max s.1.leads.length limit)
  ∧ (s.1.leads.length
      ≤ (rs.foldl (fetch_step scrape limit category query city) s).1.leads.length)
  ∧ (file_len (rs.foldl (fetch_step scrape limit category query city) s).2
        + s.1.leads.length
      = file_len s.2
        + (rs.foldl (fetch_step scrape limit category query city) s).1.leads.length)
  ∧ ("" ∉ file_keys s.2 →
      "" ∉ file_keys (rs.foldl (fetch_step scrape limit category query city) s).2) := by
  induction rs with
  | nil =>
    intro s
    exact ⟨Nat.le_max_left _ _, Nat.le_refl _, rfl, fun h => h⟩
  | cons r rs ih =>
    intro s
    rw [List.foldl_cons]
    by_cases hl : limit ≤ s.1.leads.length
    · rw [fetch_step_limit scrape limit category query city s r hl]
      exact ih s
    · cases hk : (truthy (dedup_key r.title r.phone r.address)
          && !(s.1.seen.contains (keyStr (dedup_key r.title r.phone r.address)))) with
      | false =>
        rw [fetch_step_skip scrape limit category query city s r hk]
        exact ih s
      | true =>
        have ht : truthy (dedup_key r.title r.phone r.address) = true :=
          ((Bool.and_eq_true _ _).mp hk).1
        rw [fetch_step_accept scrape limit category query city s r hl hk]
        obtain ⟨c1, c2, c3, c4⟩ := ih
          (⟨s.1.leads ++ [mk_row r (scrape_email_value scrape r) category query city],
            keyStr (dedup_key r.title r.phone r.address) :: s.1.seen⟩,
           save_lead_incrementally
             (mk_row r (scrape_email_value scrape r) category query city) s.2)
        have hlen : (⟨s.1.leads ++
            [mk_row r (scrape_email_value scrape r) category query city],
            keyStr (dedup_key r.title r.phone r.address) :: s.1.seen⟩ : RState).leads.length
            = s.1.leads.length + 1 := by simp
        have hfl : file_len (save_lead_incrementally
            (mk_row r (scrape_email_value scrape r) category query city) s.2)
            = file_len s.2 + 1 := save_len _ _
        refine ⟨?_, ?_, ?_, ?_⟩
        · rw [hlen] at c1
          omega
        · rw [hlen] at c2
          omega
        · rw [hlen] at c3
          rw [hfl] at c3
          omega
        · intro h0
          refine c4 ?_
          rw [save_keys]
          intro hmem
          rcases List.mem_append.mp hmem with hmem | hmem
          · exact h0 hmem
          · exact mk_row_key_ne r _ category query city ht
              (List.mem_singleton.mp hmem).symm

theorem fetch_fold_full (scrape : String → String) (limit : Nat)
    (category query city : String) (rs : List RawRecord) :
    ∀ (s : RState × FileState), limit ≤ s.1.leads.length →
    rs.foldl (fetch_step scrape limit category query city) s = s := by
  induction rs with
  | nil => intro s _; rfl
  | cons r rs ih =>
    intro s hl
    rw [List.foldl_cons, fetch_step_limit scrape limit category query city s r hl]
    exact ih s hl

/-- Nonempty-key files in terms of membership of `""`. -/
theorem file_keys_ne_iff (f : CsvFile) :
    "" ∉ file_keys (some f) ↔ ∀ row ∈ f.rows, row_dedup_key row ≠ "" := by
  show "" ∉ f.rows.map row_dedup_key ↔ _
  rw [List.mem_map]
  constructor
  · intro h row hr heq
    exact h ⟨row, hr, heq⟩
  · rintro h ⟨row, hr, heq⟩
    exact h row hr heq

theorem fetch_run_general_cap (scrape : String → String) (limit : Nat)
    (category query city : String) (file : FileState) (records : List RawRecord)
    (hne : "" ∉ file_keys file) :
    file_len (fetch_run scrape limit category query city file records).2
      ≤ max (file_len file) limit
  ∧ "" ∉ file_keys (fetch_run scrape limit category query city file records).2 := by
  obtain ⟨c1, c2, c3, c4⟩ := fetch_fold_cap scrape limit category query city records
    (resume_load file, file)
  have hlen0 : (resume_load file).leads.length = file_len file := by
    cases file with
    | none => rfl
    | some f =>
      have hkeys := (file_keys_ne_iff f).mp hne
      have := (resume_load_spec f hkeys).1
      show (resume_load (some f)).leads.length = f.rows.length
      rw [this]
  constructor
  · show file_len ((records.foldl (fetch_step scrape limit category query city)
        (resume_load file, file)).2) ≤ max (file_len file) limit
    have hb : file_len ((resume_load file, file) : RState × FileState).2
        = file_len file := rfl
    rw [hlen0] at c3 c1
    rw [hb] at c3
    omega
  · exact c4 hne

/-- C10 (confirmed): rows loaded from a pre-existing Run Target count toward
the limit — a resumed run over a file of `k` rows ends with at most
`max k limit` rows (so at most `limit - k` new ones), persists nothing at
all when `k ≥ limit`, and any number of successive resumed runs with the
same limit against one Run Target never leaves more than `limit` rows. -/
theorem implicit_resume_cap (scrape : String → String) (limit : Nat)
    (category query city : String) (f : CsvFile) (records : List RawRecord)
    (batches : List (List RawRecord))
    (hk : ∀ row ∈ f.rows, row_dedup_key row ≠ "") :
    file_len (fetch_run scrape limit category query city (some f) records).2
      ≤ max f.rows.length limit
  ∧ (limit ≤ f.rows.length →
      (fetch_run scrape limit category query city (some f) records).2 = some f)
  ∧ file_len (run_seq scrape limit category query city none batches) ≤ limit := by
  refine ⟨?_, ?_, ?_⟩
  · exact (fetch_run_general_cap scrape limit category query city (some f) records
      ((file_keys_ne_iff f).mpr hk)).1
  · intro hfull
    have hlen0 : (resume_load (some f)).leads.length = f.rows.length := by
      rw [(resume_load_spec f hk).1]
    show (records.foldl (fetch_step scrape limit category query city)
      (resume_load (some f), some f)).2 = some f
    rw [fetch_fold_full scrape limit category query city records
      (resume_load (some f), some f) (by rw [hlen0]; exact hfull)]
  · suffices hgen : ∀ (bs : List (List RawRecord)) (file : FileState),
        file_len file ≤ limit → "" ∉ file_keys file →
        file_len (run_seq scrape limit category query city file bs) ≤ limit by
      exact hgen batches none (by simp [file_len]) (by simp [file_keys])
    intro bs
    induction bs with
    | nil => intro file h1 _; exact h1
    | cons b bs ih =>
      intro file h1 h2
      obtain ⟨g1, g2⟩ := fetch_run_general_cap scrape limit category query city file b h2
      show file_len (run_seq scrape limit category query city
        (fetch_run scrape limit category query city file b).2 bs) ≤ limit
      exact ih _ (by omega) g2

/-- A persisted row used to witness the resume cap at concrete inputs. -/
def wRow : Row :=
  { title := "T", address := "A", phone := "", website := "", email := "",
    rating := "", reviews := "", type := "", category := "c",
    source_query := "q", city := "ct" }

/-- Witness for `implicit_resume_cap` at concrete inputs. -/
theorem implicit_resume_cap_witness :
    file_len (fetch_run (fun _ => "") 1 "c" "q" "ct"
        (some ⟨lead_fieldnames, [wRow]⟩) [wRec]).2 ≤ max 1 1
  ∧ (fetch_run (fun _ => "") 1 "c" "q" "ct"
        (some ⟨lead_fieldnames, [wRow]⟩) [wRec]).2 = some ⟨lead_fieldnames, [wRow]⟩
  ∧ file_len (run_seq (fun _ => "") 1 "c" "q" "ct" none [[wRec]]) ≤ 1 := by
  have h := implicit_resume_cap (fun _ => "") 1 "c" "q" "ct"
    ⟨lead_fieldnames, [wRow]⟩ [wRec] [[wRec]] (by decide)
  exact ⟨h.1, h.2.1 (by decide), h.2.2⟩
